import Mathlib

/-!
# AsyncGate — verification of the receipt ledger and task engine

A shallow embedding of the AsyncGate task-dispatch service: the receipt
hash (`models/receipt.py`), the receipt repository (`db/repositories.py`),
and the engine operations (`engine/core.py`), together with the static
termination rules (`models/termination.py`).

Conventions:
* UUIDs, tenant ids and principal ids are `String`s (the code hashes and
  stores their string forms).
* Timestamps are absolute UTC seconds (`Int`); `datetime.now(timezone.utc)`
  becomes an explicit `now` argument.
* Fallible Python code (raising `ValueError` / engine errors) becomes
  `Except`-returning functions.
* Randomness (`uuid4`, `random.uniform`) becomes explicit arguments, with
  their range constraints as hypotheses where the code guarantees them.
-/

set_option maxRecDepth 10000

namespace AsyncGate

/-- Absolute UTC time, in whole seconds.  (Timestamps are modelled at
integral seconds: `Int` arithmetic is exact and kernel-computable; nothing
in the verified operations depends on sub-second resolution.) -/
abbrev Time := Int

/-- `models/enums.py`: `PrincipalKind`. -/
inductive PrincipalKind where
  | agent
  | worker
  | service
  | system
  | human
deriving DecidableEq

/-- `models/enums.py`: `TaskStatus`.  The copy of `enums.py` in the sources
predates the running-state feature (migration `0002_add_running_status`):
`engine/core.py` and the tests use `TaskStatus.RUNNING`, which is absent
from that stale copy.  Modelled from the spec: status set
`queued, leased, running, succeeded, failed, canceled` (§3, Task). -/
inductive TaskStatus where
  | queued
  | leased
  | running
  | succeeded
  | failed
  | canceled
deriving DecidableEq

/-- `TaskStatus.is_terminal`. -/
def TaskStatus.is_terminal : TaskStatus → Bool
  | .succeeded => true
  | .failed => true
  | .canceled => true
  | _ => false

/-- `models/enums.py`: `ReceiptType`.  The stale copy in the sources lacks
`TASK_STARTED` and `TASK_ESCALATED`, both used by `engine/core.py`; they are
included here per the spec's closed receipt-type set (§6). -/
inductive ReceiptType where
  | task_assigned
  | task_accepted
  | task_started
  | task_completed
  | task_failed
  | task_canceled
  | task_retry_scheduled
  | task_result_ready
  | task_progress
  | task_escalated
  | lease_expired
  | receipt_acknowledged
  | system_anomaly
deriving DecidableEq

/-- The `.value` wire string of a receipt type. -/
def ReceiptType.value : ReceiptType → String
  | .task_assigned => "task.assigned"
  | .task_accepted => "task.accepted"
  | .task_started => "task.started"
  | .task_completed => "task.completed"
  | .task_failed => "task.failed"
  | .task_canceled => "task.canceled"
  | .task_retry_scheduled => "task.retry_scheduled"
  | .task_result_ready => "task.result_ready"
  | .task_progress => "task.progress"
  | .task_escalated => "task.escalated"
  | .lease_expired => "lease.expired"
  | .receipt_acknowledged => "receipt.acknowledged"
  | .system_anomaly => "system.anomaly"

/-- The `.value` wire string of a principal kind. -/
def PrincipalKind.value : PrincipalKind → String
  | .agent => "agent"
  | .worker => "worker"
  | .service => "service"
  | .system => "system"
  | .human => "human"

/-- `models/principal.py`: a principal is a kind plus an id. -/
structure Principal where
  kind : PrincipalKind
  id : String
deriving DecidableEq

/-- `models/termination.py`: `TERMINATION_RULES` — the single registered
obligation type `task.assigned` maps to its three terminators. -/
def TERMINATION_RULES : List (ReceiptType × List ReceiptType) :=
  [(.task_assigned, [.task_completed, .task_failed, .task_canceled])]

/-- `models/termination.py`: `get_terminal_types` (empty list when the
obligation type is not registered). -/
def get_terminal_types (obligation_type : ReceiptType) : List ReceiptType :=
  match TERMINATION_RULES.find? (fun kv => kv.fst == obligation_type) with
  | some kv => kv.snd
  | none => []

/-- `models/termination.py`: `is_terminal_type` — membership in any rule's
terminator list. -/
def is_terminal_type (receipt_type : ReceiptType) : Bool :=
  TERMINATION_RULES.any (fun kv => kv.snd.contains receipt_type)

/-- `models/termination.py`: the obligation types are the keys of the rules
table (`OBLIGATION_TYPES` in the spec). -/
def obligation_types : List ReceiptType :=
  TERMINATION_RULES.map Prod.fst

end AsyncGate

namespace AsyncGate

/-! ## JSON values and Python's canonical serialization

`json.dumps(x, sort_keys=True, separators=(",", ":"))` with the default
`ensure_ascii=True`, as used by `compute_receipt_hash` in
`models/receipt.py`.  Dict keys are sorted by code-point order; strings are
escaped exactly as CPython's C encoder does. -/

mutual

/-- A JSON value (Python `None`/`bool`/`int`/`str`/`list`/`dict`), as a
mutual inductive so that every function over it is structurally
recursive (hence executable and kernel-reducible). -/
inductive Json where
  | null
  | bool (b : Bool)
  | num (n : Int)
  | str (s : String)
  | arr (xs : JsonList)
  | obj (kvs : JsonKvs)

/-- Elements of a JSON array. -/
inductive JsonList where
  | nil
  | cons (x : Json) (xs : JsonList)

/-- Entries of a JSON object, in Python-dict insertion order. -/
inductive JsonKvs where
  | nil
  | cons (k : String) (v : Json) (rest : JsonKvs)

end

/-- Build a JSON array from a list. -/
def Json.jarr (xs : List Json) : Json :=
  Json.arr (xs.foldr JsonList.cons JsonList.nil)

/-- Entries from a key-value list. -/
def JsonKvs.ofList (kvs : List (String × Json)) : JsonKvs :=
  kvs.foldr (fun kv rest => JsonKvs.cons kv.fst kv.snd rest) JsonKvs.nil

/-- Build a JSON object from a key-value list (insertion order). -/
def Json.jobj (kvs : List (String × Json)) : Json :=
  Json.obj (JsonKvs.ofList kvs)

/-- Python truthiness of a JSON value (`if body:`). -/
def Json.truthy : Json → Bool
  | .null => false
  | .bool b => b
  | .num n => n != 0
  | .str s => s != ""
  | .arr .nil => false
  | .arr (.cons _ _) => true
  | .obj .nil => false
  | .obj (.cons _ _ _) => true

/-- First binding for a key among object entries. -/
def JsonKvs.get : JsonKvs → String → Option Json
  | .nil, _ => none
  | .cons k v rest, key => if k == key then some v else JsonKvs.get rest key

/-- `d.get(k)` on a JSON object: first binding for the key, if any. -/
def Json.get : Json → String → Option Json
  | .obj kvs, k => kvs.get k
  | _, _ => none

/-- `k in d` on a JSON object. -/
def Json.hasKey (j : Json) (k : String) : Bool :=
  (j.get k).isSome

/-- Append one entry at the end (Python dicts append new keys last). -/
def JsonKvs.append (kvs : JsonKvs) (k : String) (v : Json) : JsonKvs :=
  match kvs with
  | .nil => .cons k v .nil
  | .cons k0 v0 rest => .cons k0 v0 (rest.append k v)

/-- `d[k] = v` on a JSON object when `k` is absent. -/
def Json.insertNew : Json → String → Json → Json
  | .obj kvs, k, v => .obj (kvs.append k v)
  | j, _, _ => j

/-- Lowercase hexadecimal digit. -/
def hexDigit (n : Nat) : Char :=
  if n < 10 then Char.ofNat (48 + n) else Char.ofNat (87 + n)

/-- Four lowercase hex digits (for unicode escapes). -/
def hex4 (n : Nat) : String :=
  String.mk [hexDigit (n / 4096 % 16), hexDigit (n / 256 % 16),
    hexDigit (n / 16 % 16), hexDigit (n % 16)]

/-- CPython's `ensure_ascii` JSON escaping of one character: quote and
backslash get a backslash, the common control characters get their short
escapes, printable ASCII passes through, and everything else becomes a
`\\uXXXX` escape (a surrogate pair above the BMP). -/
def jsonEscapeChar (c : Char) : String :=
  if c = Char.ofNat 34 then "\\\""
  else if c = Char.ofNat 92 then "\\\\"
  else if c.toNat = 10 then "\\n"
  else if c.toNat = 13 then "\\r"
  else if c.toNat = 9 then "\\t"
  else if c.toNat = 8 then "\\b"
  else if c.toNat = 12 then "\\f"
  else if 32 ≤ c.toNat ∧ c.toNat ≤ 126 then String.mk [c]
  else if c.toNat < 65536 then "\\u" ++ hex4 c.toNat
  else
    let n := c.toNat - 65536
    "\\u" ++ hex4 (55296 + n / 1024) ++ "\\u" ++ hex4 (56320 + n % 1024)

/-- A JSON string literal: quote and escape. -/
def jsonQuote (s : String) : String :=
  "\"" ++ String.join (s.data.map jsonEscapeChar) ++ "\""

/-- Comma-join serialized fragments. -/
def joinComma : List String → String
  | [] => ""
  | [s] => s
  | s :: t :: rest => s ++ "," ++ joinComma (t :: rest)

/-- Serialize one object entry (the key is escaped at output time; sorting
compares the raw keys, as Python's `sorted(d.items())` does). -/
def kvFragment (kv : String × String) : String :=
  jsonQuote kv.fst ++ ":" ++ kv.snd

/-- Python's three-way comparison of strings: code-point lexicographic. -/
def pyCmp : List Char → List Char → Ordering
  | [], [] => .eq
  | [], _ :: _ => .lt
  | _ :: _, [] => .gt
  | a :: as, b :: bs =>
      if a.toNat < b.toNat then .lt
      else if b.toNat < a.toNat then .gt
      else pyCmp as bs

/-- Python's `a <= b` on strings. -/
def pyStrLe (a b : String) : Bool :=
  match pyCmp a.data b.data with
  | .gt => false
  | _ => true

/-- `sort_keys=True`: entries in code-point key order (Python's stable
sort).  Sorting the per-entry serializations is the same as serializing the
sorted entries, since entries serialize independently. -/
def sortPairs (kvs : List (String × String)) : List (String × String) :=
  kvs.insertionSort (fun a b => pyStrLe a.fst b.fst = true)

mutual

/-- `json.dumps(·, sort_keys=True, separators=(",", ":"))`. -/
def Json.dumps : Json → String
  | .null => "null"
  | .bool true => "true"
  | .bool false => "false"
  | .num n => toString n
  | .str s => jsonQuote s
  | .arr xs => "[" ++ joinComma (dumpsElems xs) ++ "]"
  | .obj kvs => "\x7b" ++ joinComma ((sortPairs (dumpsEntries kvs)).map kvFragment) ++ "\x7d"

/-- Serialized array elements, in order. -/
def dumpsElems : JsonList → List String
  | .nil => []
  | .cons x xs => Json.dumps x :: dumpsElems xs

/-- `(key, serialized value)` for each object entry, in insertion order. -/
def dumpsEntries : JsonKvs → List (String × String)
  | .nil => []
  | .cons k v rest => (k, Json.dumps v) :: dumpsEntries rest

end

mutual

/-- `json.dumps(·, separators=(",", ":"))` without `sort_keys` — the form
used for the receipt-body size check in `ReceiptRepository.create`. -/
def Json.dumpsRaw : Json → String
  | .null => "null"
  | .bool true => "true"
  | .bool false => "false"
  | .num n => toString n
  | .str s => jsonQuote s
  | .arr xs => "[" ++ joinComma (dumpsRawElems xs) ++ "]"
  | .obj kvs => "\x7b" ++ joinComma ((dumpsRawEntries kvs).map kvFragment) ++ "\x7d"

/-- Unsorted serialized array elements. -/
def dumpsRawElems : JsonList → List String
  | .nil => []
  | .cons x xs => Json.dumpsRaw x :: dumpsRawElems xs

/-- Unsorted `(key, serialized value)` object entries. -/
def dumpsRawEntries : JsonKvs → List (String × String)
  | .nil => []
  | .cons k v rest => (k, Json.dumpsRaw v) :: dumpsRawEntries rest

end


end AsyncGate

namespace AsyncGate

/-! ## UTF-8 and SHA-256

`content.encode()` and `hashlib.sha256(...).hexdigest()` from
`models/receipt.py`, implemented bit-for-bit on byte lists. -/

/-- UTF-8 encoding of one unicode scalar value. -/
def utf8Char (c : Char) : List Nat :=
  let n := c.toNat
  if n < 128 then [n]
  else if n < 2048 then [192 + n / 64, 128 + n % 64]
  else if n < 65536 then [224 + n / 4096, 128 + n / 64 % 64, 128 + n % 64]
  else [240 + n / 262144, 128 + n / 4096 % 64, 128 + n / 64 % 64, 128 + n % 64]

/-- `str.encode()`: UTF-8 bytes of a string. -/
def utf8 (s : String) : List Nat :=
  (s.data.map utf8Char).join

/-- Reduction modulo `2^32`. -/
def m32 (x : Nat) : Nat := x % 4294967296

/-- Right rotation of a 32-bit word. -/
def rotr32 (n x : Nat) : Nat := m32 ((x >>> n) ||| (x <<< (32 - n)))

/-- SHA-256 `Σ₀`. -/
def bigSigma0 (x : Nat) : Nat := rotr32 2 x ^^^ rotr32 13 x ^^^ rotr32 22 x

/-- SHA-256 `Σ₁`. -/
def bigSigma1 (x : Nat) : Nat := rotr32 6 x ^^^ rotr32 11 x ^^^ rotr32 25 x

/-- SHA-256 `σ₀`. -/
def smallSigma0 (x : Nat) : Nat := rotr32 7 x ^^^ rotr32 18 x ^^^ (x >>> 3)

/-- SHA-256 `σ₁`. -/
def smallSigma1 (x : Nat) : Nat := rotr32 17 x ^^^ rotr32 19 x ^^^ (x >>> 10)

/-- SHA-256 `Ch`. -/
def sha256Ch (x y z : Nat) : Nat := (x &&& y) ^^^ ((x ^^^ 4294967295) &&& z)

/-- SHA-256 `Maj`. -/
def sha256Maj (x y z : Nat) : Nat := (x &&& y) ^^^ (x &&& z) ^^^ (y &&& z)

/-- The 64 SHA-256 round constants (FIPS 180-4, written in decimal). -/
def sha256K : List Nat :=
  [1116352408, 1899447441, 3049323471, 3921009573,
   961987163, 1508970993, 2453635748, 2870763221,
   3624381080, 310598401, 607225278, 1426881987,
   1925078388, 2162078206, 2614888103, 3248222580,
   3835390401, 4022224774, 264347078, 604807628,
   770255983, 1249150122, 1555081692, 1996064986,
   2554220882, 2821834349, 2952996808, 3210313671,
   3336571891, 3584528711, 113926993, 338241895,
   666307205, 773529912, 1294757372, 1396182291,
   1695183700, 1986661051, 2177026350, 2456956037,
   2730485921, 2820302411, 3259730800, 3345764771,
   3516065817, 3600352804, 4094571909, 275423344,
   430227734, 506948616, 659060556, 883997877,
   958139571, 1322822218, 1537002063, 1747873779,
   1955562222, 2024104815, 2227730452, 2361852424,
   2428436474, 2756734187, 3204031479, 3329325298]

/-- The SHA-256 initial hash value (decimal). -/
def sha256H0 : List Nat :=
  [1779033703, 3144134277, 1013904242, 2773480762,
   1359893119, 2600822924, 528734635, 1541459225]

/-- `n` bytes of `x`, big-endian. -/
def bytesBE : Nat → Nat → List Nat
  | 0, _ => []
  | n + 1, x => bytesBE n (x / 256) ++ [x % 256]

/-- SHA-256 padding: a `0x80` byte, zeros to 56 mod 64, then the bit length
as 8 big-endian bytes. -/
def sha256Pad (msg : List Nat) : List Nat :=
  let z := (119 - msg.length % 64) % 64
  msg ++ [128] ++ List.replicate z 0 ++ bytesBE 8 (8 * msg.length)

/-- Big-endian 32-bit words from bytes. -/
def toWords : List Nat → List Nat
  | b0 :: b1 :: b2 :: b3 :: rest =>
      (((b0 * 256 + b1) * 256 + b2) * 256 + b3) :: toWords rest
  | _ => []

/-- Message-schedule extension; `ws` is the reversed schedule so far. -/
def extendW (ws : List Nat) : Nat → List Nat
  | 0 => ws.reverse
  | n + 1 =>
      let w := m32 (smallSigma1 (ws.getD 1 0) + ws.getD 6 0 +
        smallSigma0 (ws.getD 14 0) + ws.getD 15 0)
      extendW (w :: ws) n

/-- The 64 compression rounds over the zipped `(K, W)` pairs. -/
def sha256Rounds :
    List (Nat × Nat) → Nat × Nat × Nat × Nat × Nat × Nat × Nat × Nat →
      Nat × Nat × Nat × Nat × Nat × Nat × Nat × Nat
  | [], st => st
  | (k, w) :: rest, (a, b, c, d, e, f, g, h) =>
      let t1 := m32 (h + bigSigma1 e + sha256Ch e f g + k + w)
      let t2 := m32 (bigSigma0 a + sha256Maj a b c)
      sha256Rounds rest (m32 (t1 + t2), a, b, c, m32 (d + t1), e, f, g)

/-- Compress one 16-word block into the running hash. -/
def sha256Compress (H : List Nat) (block16 : List Nat) : List Nat :=
  let W := extendW block16.reverse 48
  let a0 := H.getD 0 0
  let b0 := H.getD 1 0
  let c0 := H.getD 2 0
  let d0 := H.getD 3 0
  let e0 := H.getD 4 0
  let f0 := H.getD 5 0
  let g0 := H.getD 6 0
  let h0 := H.getD 7 0
  match sha256Rounds (sha256K.zip W) (a0, b0, c0, d0, e0, f0, g0, h0) with
  | (a, b, c, d, e, f, g, h) =>
      [m32 (a0 + a), m32 (b0 + b), m32 (c0 + c), m32 (d0 + d),
       m32 (e0 + e), m32 (f0 + f), m32 (g0 + g), m32 (h0 + h)]

/-- Fold the compression function over `n` 64-byte blocks. -/
def sha256Blocks : Nat → List Nat → List Nat → List Nat
  | 0, H, _ => H
  | n + 1, H, bytes =>
      sha256Blocks n (sha256Compress H (toWords (bytes.take 64))) (bytes.drop 64)

/-- Two lowercase hex digits of a byte. -/
def byteToHex (b : Nat) : String :=
  String.mk [hexDigit (b / 16), hexDigit (b % 16)]

/-- `hashlib.sha256(bytes).hexdigest()`: pad, compress every block, and
print the eight word registers as lowercase hex. -/
def sha256Hex (msg : List Nat) : String :=
  let padded := sha256Pad msg
  let H := sha256Blocks (padded.length / 64) sha256H0 padded
  String.join (((H.map (bytesBE 4)).join).map byteToHex)

/-- `hashlib.sha256(s.encode()).hexdigest()`. -/
def sha256HexOfString (s : String) : String :=
  sha256Hex (utf8 s)

/-- Python's `sorted` on strings: code-point lexicographic order. -/
def pySorted (l : List String) : List String :=
  l.insertionSort (fun a b => pyStrLe a b = true)

/-- `models/receipt.py`: `compute_receipt_hash` — the deduplication hash
over type, ids, principals, sorted parents and the canonical body hash. -/
def compute_receipt_hash (receipt_type : ReceiptType) (task_id : Option String)
    (from_principal : Principal) (to_principal : Principal)
    (lease_id : Option String) (body : Option Json)
    (parents : Option (List String)) : String :=
  let body_hash : Option String :=
    match body with
    | some b => if b.truthy then some (sha256HexOfString (Json.dumps b)) else none
    | none => none
  let optStr : Option String → Json := fun o =>
    match o with
    | some s => .str s
    | none => .null
  let data : Json := Json.jobj
    [("receipt_type", .str receipt_type.value),
     ("task_id", optStr task_id),
     ("from_kind", .str from_principal.kind.value),
     ("from_id", .str from_principal.id),
     ("to_kind", .str to_principal.kind.value),
     ("to_id", .str to_principal.id),
     ("lease_id", optStr lease_id),
     ("parents", Json.jarr ((pySorted (parents.getD [])).map Json.str)),
     ("body_hash", optStr body_hash)]
  sha256HexOfString (Json.dumps data)

end AsyncGate

namespace AsyncGate

/-! ## Data model

Rows of the three tables the claims touch (`db/tables.py`, plus the
`started_at` / `running` columns of migration `0002` and the
`payload_pointer` / `principal_ai` columns of migration `0003`, which
`engine/core.py` uses but the stale `tables.py` copy predates), and the
configuration knobs of `config.py` with their defaults. -/

/-- `config.py` `Settings` — the knobs used by the embedded operations,
with the source defaults. -/
structure Settings where
  default_lease_ttl_seconds : Nat := 120
  max_lease_ttl_seconds : Nat := 1800
  max_lease_renewals : Nat := 10
  max_lease_lifetime_seconds : Nat := 7200
  default_max_attempts : Nat := 2
  default_retry_backoff_seconds : Nat := 15
  max_retry_backoff_seconds : Nat := 900
  default_priority : Int := 0
  instance_id : String := "asyncgate-1"

/-- `models/enums.py`: `Outcome`. -/
inductive Outcome where
  | succeeded
  | failed
  | canceled
deriving DecidableEq

/-- `models/task.py`: `TaskRequirements`. -/
structure TaskRequirements where
  capabilities : List String := []
  tags : List String := []
deriving DecidableEq

/-- `models/task.py`: `TaskResult` — terminal outcome of a task. -/
structure TaskResult where
  outcome : Outcome
  result : Option Json := none
  error : Option Json := none
  artifacts : Option Json := none
  completed_at : Time

/-- A task row (`TaskTable` plus the later-migration columns
`started_at`, `payload_pointer`, `principal_ai`, `expected_outcome_kind`,
`expected_artifact_mime` used by `engine/core.py`). -/
structure TaskRow where
  tenant_id : String
  task_id : String
  type : String
  payload : Json
  payload_pointer : Option String := none
  principal_ai : Option String := none
  created_by : Principal
  requirements : TaskRequirements := {}
  priority : Int
  status : TaskStatus
  attempt : Nat
  max_attempts : Nat
  retry_backoff_seconds : Nat
  idempotency_key : Option String
  created_at : Time
  updated_at : Time
  next_eligible_at : Option Time
  started_at : Option Time := none
  result : Option TaskResult := none
  expected_outcome_kind : Option String := none
  expected_artifact_mime : Option String := none
  asyncgate_instance : Option String

/-- A lease row (`LeaseTable` plus the `acquired_at` / `renewal_count`
columns that `LeaseRepository` reads and writes). -/
structure LeaseRow where
  lease_id : String
  tenant_id : String
  task_id : String
  worker_id : String
  expires_at : Time
  created_at : Time
  acquired_at : Time
  renewal_count : Nat

/-- A receipt row (`ReceiptTable`); `delivered_at` is telemetry the claims
never touch and is omitted. -/
structure ReceiptRow where
  tenant_id : String
  receipt_id : String
  receipt_type : ReceiptType
  created_at : Time
  from_ : Principal
  to_ : Principal
  task_id : Option String := none
  lease_id : Option String := none
  schedule_id : Option String := none
  parents : List String := []
  body : Json := Json.jobj []
  hash : Option String := none
  asyncgate_instance : Option String := none

/-- The transactional store: the three tables as append/update lists. -/
structure DB where
  tasks : List TaskRow := []
  leases : List LeaseRow := []
  receipts : List ReceiptRow := []

/-- `engine/errors.py` (plus the renewal-limit kinds that
`db/repositories.py` imports from it; the copy of `errors.py` in the
sources predates them, their fields follow the `raise` sites and §7 of the
spec) and the distinct `ValueError` raise sites of
`ReceiptRepository.create` / `AsyncGateEngine`. -/
inductive EngineError where
  | taskNotFound (task_id : String)
  | invalidStateTransition (current requested : TaskStatus)
  | leaseInvalidOrExpired (task_id lease_id : String)
  | leaseRenewalLimitExceeded (renewal_count max_renewals : Nat)
  | leaseLifetimeExceeded (lifetime_seconds : Int) (max_lifetime : Nat)
  | unauthorized
  | bodyTooLarge (size : Nat)
  | tooManyParents (count : Nat)
  | tooManyArtifacts (count : Nat)
  | terminalWithoutParents (receipt_type : ReceiptType)
  | parentNotFound (parent_id : String)
  | missingObligation (task_id : String)
  | principalAiRequired
deriving DecidableEq

end AsyncGate

namespace AsyncGate

/-! ## Principals and small helpers -/

/-- `principals.py`: `SYSTEM_PRINCIPAL_ID`. -/
def SYSTEM_PRINCIPAL_ID : String := "sys:legivellum"

/-- `principals.py`: `SERVICE_PRINCIPAL_ID`. -/
def SERVICE_PRINCIPAL_ID : String := "svc:asyncgate"

/-- `principals.py`: `is_system`. -/
def is_system (principal_id : String) : Bool :=
  principal_id == SYSTEM_PRINCIPAL_ID

/-- `str.startswith`, on character lists (kernel-computable, unlike the
byte-position based `String.startsWith`). -/
def strStartsWith (s p : String) : Bool :=
  p.data.isPrefixOf s.data

/-- `str[n:]`, on character lists. -/
def strDrop (s : String) (n : Nat) : String :=
  String.mk (s.data.drop n)

/-- `principals.py`: `normalize_external` — strip a leading `ext:`. -/
def normalize_external (principal_id : String) : String :=
  if strStartsWith principal_id "ext:" then strDrop principal_id 4
  else principal_id

/-- `principals.py`: `is_internal_principal_id` — `sys:` or `svc:` ids. -/
def is_internal_principal_id (principal_id : String) : Bool :=
  strStartsWith principal_id "sys:" || strStartsWith principal_id "svc:"

/-- `AsyncGateEngine._service_principal`. -/
def servicePrincipal : Principal := ⟨.service, SERVICE_PRINCIPAL_ID⟩

/-- `AsyncGateEngine._system_owner`. -/
def systemOwner : Principal := ⟨.system, SYSTEM_PRINCIPAL_ID⟩

/-- `AsyncGateEngine._normalize_principal`. -/
def normalizePrincipal (p : Principal) : Principal :=
  ⟨p.kind, normalize_external p.id⟩

/-- `AsyncGateEngine._resolve_obligation_owner`. -/
def resolveObligationOwner (created_by : Principal) : Principal :=
  let normalized := normalizePrincipal created_by
  if is_system normalized.id || normalized.id == SERVICE_PRINCIPAL_ID then systemOwner
  else normalized

/-- Python `x or default` on an optional number (`0` falls to the default). -/
def orTruthy (o : Option Nat) (d : Nat) : Nat :=
  match o with
  | some n => if n != 0 then n else d
  | none => d

/-- Boolean `a ≤ b` on times. -/
def timeLeB (a b : Time) : Bool :=
  decide (a ≤ b)

/-- Boolean `a < b` on times. -/
def timeLtB (a b : Time) : Bool :=
  decide (a < b)

/-- A stand-in for `datetime.isoformat()` in receipt bodies: an injective
textual rendering of the timestamp. -/
def timeIso (t : Time) : String :=
  toString t

/-- `None`-to-`null` for optional JSON payloads in receipt bodies. -/
def optJson (o : Option Json) : Json :=
  o.getD .null

/-- `None`-to-`null` for optional strings. -/
def optStrJson (o : Option String) : Json :=
  match o with
  | some s => .str s
  | none => .null

/-! ## Lookup helpers over the store -/

/-- `TaskRepository.get`. -/
def dbGetTask (db : DB) (tenant_id task_id : String) : Option TaskRow :=
  db.tasks.find? (fun t => t.tenant_id == tenant_id && t.task_id == task_id)

/-- Update the row with the given key in place. -/
def dbUpdateTask (db : DB) (tenant_id task_id : String) (f : TaskRow → TaskRow) : DB :=
  { db with tasks := db.tasks.map (fun t =>
      if t.tenant_id == tenant_id && t.task_id == task_id then f t else t) }

/-- `ReceiptRepository._get_by_hash`: lookup on `(tenant_id, hash)`. -/
def getByHash (db : DB) (tenant_id : String) (h : String) : Option ReceiptRow :=
  db.receipts.find? (fun r => r.tenant_id == tenant_id && r.hash == some h)

/-- `ReceiptRepository.get_by_parent` filter (all receipts of the tenant
whose `parents` JSON array contains the id; ordering/limit elided). -/
def receiptsCiting (db : DB) (tenant_id parent_receipt_id : String) : List ReceiptRow :=
  db.receipts.filter (fun r =>
    r.tenant_id == tenant_id && r.parents.contains parent_receipt_id)

/-- `ReceiptRepository.has_terminator` — note: the query matches **any**
receipt of the tenant whose `parents` contains the id; there is no
receipt-type condition. -/
def has_terminator (db : DB) (tenant_id parent_receipt_id : String) : Bool :=
  db.receipts.any (fun r =>
    r.tenant_id == tenant_id && r.parents.contains parent_receipt_id)

/-- `ReceiptRepository.get_task_obligation` — absent from the stale
`db/repositories.py` copy but called throughout `engine/core.py`.
Modelled from the spec: missing `ReceiptRepository.get_task_obligation`;
§4.3.2 — "fetch the parent `task.assigned` receipt (by task_id +
obligation owner)". -/
def getTaskObligation (db : DB) (tenant_id task_id : String)
    (owner : Option Principal) : Option ReceiptRow :=
  db.receipts.find? (fun r =>
    r.tenant_id == tenant_id && r.receipt_type == ReceiptType.task_assigned &&
    r.task_id == some task_id &&
    (match owner with
     | some o => r.to_ == o
     | none => true))

/-- `AsyncGateEngine._get_task_obligation`: owner-hinted lookup with a
fallback without the owner filter. -/
def engineGetTaskObligation (db : DB) (tenant_id task_id : String)
    (owner_hint : Option Principal) : Option ReceiptRow :=
  match getTaskObligation db tenant_id task_id owner_hint with
  | some r => some r
  | none =>
    match owner_hint with
    | some _ => getTaskObligation db tenant_id task_id none
    | none => none

end AsyncGate

namespace AsyncGate

/-! ## ReceiptRepository.create and the engine's emission wrapper -/

/-- Number of elements of a JSON array value (for the artifacts cap). -/
def JsonList.length : JsonList → Nat
  | .nil => 0
  | .cons _ xs => 1 + JsonList.length xs

/-- `body_data.get('artifacts') is not None` (a stored JSON `null` is
Python `None`). -/
def bodyHasArtifacts (b : Json) : Bool :=
  match b.get "artifacts" with
  | some .null => false
  | some _ => true
  | none => false

/-- `body_data.get('delivery_proof') is not None`. -/
def bodyHasDeliveryProof (b : Json) : Bool :=
  match b.get "delivery_proof" with
  | some .null => false
  | some _ => true
  | none => false

/-- `ReceiptRepository.create` (`db/repositories.py`, lines 599–725):
size caps, dedup on a caller-supplied hash, the terminal-parent-linkage
check, the lenient locatability branch for `task.completed` (strip
`parents`, log — the `system.anomaly` emission is a `TODO` in the source),
then insert.  The savepoint discipline is modelled by returning `.error`
without any state change. -/
def receiptCreate (S : Settings) (db : DB) (receipt_id : String) (now : Time)
    (tenant_id : String) (receipt_type : ReceiptType)
    (from_principal to_principal : Principal)
    (task_id lease_id schedule_id : Option String)
    (parents : Option (List String)) (body : Option Json)
    (receipt_hash : Option String) : Except EngineError (ReceiptRow × DB) :=
  let bodyTruthy := match body with
    | some b => b.truthy
    | none => false
  let bodySize := match body with
    | some b => (utf8 b.dumpsRaw).length
    | none => 0
  if bodyTruthy && bodySize > 65536 then
    .error (.bodyTooLarge bodySize)
  else if (parents.getD []).length > 10 then
    .error (.tooManyParents (parents.getD []).length)
  else if bodyTruthy &&
      (match (body.getD (Json.jobj [])).get "artifacts" with
       | some (.arr xs) => xs.length > 100
       | _ => false) then
    .error (.tooManyArtifacts
      (match (body.getD (Json.jobj [])).get "artifacts" with
       | some (.arr xs) => xs.length
       | _ => 0))
  else
    match receipt_hash with
    | some h =>
      if h != "" then
        match getByHash db tenant_id h with
        | some existing => .ok (existing, db)
        | none => receiptCreateInsert S db receipt_id now tenant_id receipt_type
            from_principal to_principal task_id lease_id schedule_id parents body
            receipt_hash
      else receiptCreateInsert S db receipt_id now tenant_id receipt_type
        from_principal to_principal task_id lease_id schedule_id parents body
        receipt_hash
    | none => receiptCreateInsert S db receipt_id now tenant_id receipt_type
        from_principal to_principal task_id lease_id schedule_id parents body
        receipt_hash
where
  /-- The post-dedup part of `create`: terminal linkage, locatability,
  insert. -/
  receiptCreateInsert (S : Settings) (db : DB) (receipt_id : String) (now : Time)
      (tenant_id : String) (receipt_type : ReceiptType)
      (from_principal to_principal : Principal)
      (task_id lease_id schedule_id : Option String)
      (parents : Option (List String)) (body : Option Json)
      (receipt_hash : Option String) : Except EngineError (ReceiptRow × DB) :=
    if is_terminal_type receipt_type && (parents.getD []).isEmpty then
      .error (.terminalWithoutParents receipt_type)
    else
      match (if is_terminal_type receipt_type then
        (parents.getD []).find? (fun p =>
          !(db.receipts.any (fun r => r.tenant_id == tenant_id && r.receipt_id == p)))
        else none) with
      | some missing => .error (.parentNotFound missing)
      | none =>
        let body_data := body.getD (Json.jobj [])
        let parents_to_use :=
          if receipt_type == ReceiptType.task_completed &&
              !(bodyHasArtifacts body_data || bodyHasDeliveryProof body_data) then
            ([] : List String)
          else parents.getD []
        let row : ReceiptRow :=
          { tenant_id := tenant_id
            receipt_id := receipt_id
            receipt_type := receipt_type
            created_at := now
            from_ := from_principal
            to_ := to_principal
            task_id := task_id
            lease_id := lease_id
            schedule_id := schedule_id
            parents := parents_to_use
            body := body.getD (Json.jobj [])
            hash := receipt_hash
            asyncgate_instance := some S.instance_id }
        .ok (row, { db with receipts := db.receipts ++ [row] })

/-- `AsyncGateEngine._emit_receipt` (`engine/core.py`, lines 1211–1286):
inject the trace id into the body when absent, then call
`ReceiptRepository.create` with `receipt_hash=None` (no hash is computed on
this path).  `trace_id` models `get_trace_id() or ensure_trace_id()`
(`observability/trace.py` is absent from the sources; per its call-site
contract the result is a non-empty id, which theorems state as a
hypothesis).  The ReceiptGate forwarding branch is configuration-off
external I/O and is not modelled.  `emitBodyPayload` is the
`body_payload` preparation (copy, then insert `trace_id` when absent). -/
def emitBodyPayload (trace_id : String) (body : Option Json) : Json :=
  let body_payload := match body with
    | some b => if b.truthy then b else Json.jobj []
    | none => Json.jobj []
  if trace_id != "" && !(body_payload.hasKey "trace_id") then
    body_payload.insertNew "trace_id" (.str trace_id)
  else body_payload

/-- The `ReceiptRepository.create` call of `_emit_receipt`, with the
trace-extended body and `receipt_hash=None`. -/
def emitReceipt (S : Settings) (db : DB) (receipt_id : String) (now : Time)
    (trace_id : String) (tenant_id : String) (receipt_type : ReceiptType)
    (from_principal to_principal : Principal)
    (task_id lease_id schedule_id : Option String)
    (body : Option Json) (parents : Option (List String)) :
    Except EngineError (ReceiptRow × DB) :=
  receiptCreate S db receipt_id now tenant_id receipt_type from_principal
    to_principal task_id lease_id schedule_id parents
    (some (emitBodyPayload trace_id body)) none

end AsyncGate

namespace AsyncGate

/-! ## Open-obligations query (code form) -/

/-- `ORDER BY created_at ASC` (stable). -/
def sortByCreatedAt (rs : List ReceiptRow) : List ReceiptRow :=
  rs.insertionSort (fun a b => timeLeB a.created_at b.created_at = true)

/-- The filtering loop at the end of `list_open_obligations`: keep
candidates that are not in the terminated set, stopping once `limit` many
are collected. -/
def openLoop (terminated : List String) (limit : Nat) :
    List ReceiptRow → List ReceiptRow → List ReceiptRow
  | [], acc => acc.reverse
  | r :: rest, acc =>
      let acc' := if terminated.contains r.receipt_id then acc else r :: acc
      if limit ≤ acc'.length then acc'.reverse
      else openLoop terminated limit rest acc'

/-- `ReceiptRepository.list_open_obligations` (`db/repositories.py`, lines
966–1081): candidates are obligation-type receipts addressed to the
principal; the batch termination check collects every id that appears in
the `parents` of **any** receipt of the tenant (again with no receipt-type
condition); survivors are returned up to `limit` with a cursor when the
page is full. -/
def list_open_obligations (db : DB) (tenant_id : String)
    (to_kind : PrincipalKind) (to_id : String)
    (since_receipt_id : Option String) (limit : Nat) :
    List ReceiptRow × Option String :=
  let candidate_limit := min (limit * 3) 1000
  let base := db.receipts.filter (fun r =>
    r.tenant_id == tenant_id && r.to_.kind == to_kind && r.to_.id == to_id &&
    obligation_types.contains r.receipt_type)
  let base := match since_receipt_id with
    | some sid =>
      match db.receipts.find? (fun r =>
          r.tenant_id == tenant_id && r.receipt_id == sid) with
      | some cursor_row =>
          base.filter (fun r => timeLtB cursor_row.created_at r.created_at)
      | none => base
    | none => base
  let candidates := (sortByCreatedAt base).take candidate_limit
  if candidates.isEmpty then ([], none)
  else
    let candidate_ids := candidates.map (fun r => r.receipt_id)
    let terminated_ids :=
      (db.receipts.filter (fun r => r.tenant_id == tenant_id && !r.parents.isEmpty)).foldl
        (fun acc r => acc ++ r.parents.filter (fun p => candidate_ids.contains p)) []
    let opens := openLoop terminated_ids limit candidates []
    let next_cursor :=
      if limit ≤ opens.length then (opens.getLast?).map (fun r => r.receipt_id)
      else none
    (opens.take limit, next_cursor)

/-! ## TaskRepository -/

/-- `TaskRepository.create` (`db/repositories.py`, lines 48–107): insert a
queued row; an idempotency-key collision returns the existing row instead
(DB-first uniqueness on `(tenant_id, idempotency_key)`).  The
`payload_pointer` / `principal_ai` / expectation columns are the migration
`0003` fields that `engine/core.py` passes. -/
def taskRepoCreate (S : Settings) (db : DB) (task_id : String) (now : Time)
    (tenant_id : String) (type : String) (payload : Json)
    (payload_pointer : Option String) (created_by : Principal)
    (principal_ai : Option String) (requirements : Option TaskRequirements)
    (expected_outcome_kind expected_artifact_mime : Option String)
    (priority : Int) (idempotency_key : Option String)
    (max_attempts retry_backoff_seconds delay_seconds : Option Nat) :
    TaskRow × DB :=
  let insertRow : TaskRow :=
    { tenant_id := tenant_id
      task_id := task_id
      type := type
      payload := payload
      payload_pointer := payload_pointer
      principal_ai := principal_ai
      created_by := created_by
      requirements := requirements.getD {}
      priority := priority
      status := .queued
      attempt := 0
      max_attempts := orTruthy max_attempts S.default_max_attempts
      retry_backoff_seconds :=
        orTruthy retry_backoff_seconds S.default_retry_backoff_seconds
      idempotency_key := idempotency_key
      created_at := now
      updated_at := now
      next_eligible_at := match delay_seconds with
        | some d => if d != 0 then some (now + (d : Int)) else none
        | none => none
      started_at := none
      result := none
      expected_outcome_kind := expected_outcome_kind
      expected_artifact_mime := expected_artifact_mime
      asyncgate_instance := some S.instance_id }
  match idempotency_key with
  | some key =>
    match db.tasks.find? (fun t =>
        t.tenant_id == tenant_id && t.idempotency_key == some key) with
    | some existing => (existing, db)
    | none => (insertRow, { db with tasks := db.tasks ++ [insertRow] })
  | none => (insertRow, { db with tasks := db.tasks ++ [insertRow] })

/-- `TaskRepository.update_status`, with the `started_at` column of the
running-state feature (migration `0002`; the stale repository copy
predates it — modelled from the spec: §4.3.4, "set `started_at` if null"
via the engine passing the value to set). -/
def updateTaskStatus (db : DB) (now : Time) (tenant_id task_id : String)
    (new_status : TaskStatus) (result : Option TaskResult)
    (started_at : Option Time) : DB :=
  dbUpdateTask db tenant_id task_id (fun t =>
    { t with
      status := new_status
      updated_at := now
      result := match result with
        | some r => some r
        | none => t.result
      started_at := match started_at with
        | some s => some s
        | none => t.started_at })

/-- `TaskRepository.requeue_with_backoff` (`db/repositories.py`, lines
200–234): `attempt + 1` when `increment_attempt` (the engine always passes
`True`, so the new attempt is ≥ 1 and the Nat exponent `attempt - 1`
matches Python's `2 ** (attempt - 1)`), backoff capped at
`max_retry_backoff_seconds`, status back to queued. -/
def requeue_with_backoff (S : Settings) (db : DB) (now : Time)
    (tenant_id task_id : String) (increment_attempt : Bool := true) :
    Option TaskRow × DB :=
  match dbGetTask db tenant_id task_id with
  | none => (none, db)
  | some task =>
    let attempt := if increment_attempt then task.attempt + 1 else task.attempt
    let backoff : Nat :=
      min (task.retry_backoff_seconds * 2 ^ (attempt - 1))
        S.max_retry_backoff_seconds
    let next_eligible_at := now + (backoff : Int)
    let db' := dbUpdateTask db tenant_id task_id (fun t =>
      { t with
        status := .queued
        attempt := attempt
        next_eligible_at := some next_eligible_at
        updated_at := now })
    (dbGetTask db' tenant_id task_id, db')

/-- `TaskRepository.requeue_on_expiry` (`db/repositories.py`, lines
236–282): status queued, attempt **unchanged**, `next_eligible_at` is now
plus the caller's jitter.  The reset `started_at := null` is the
running-state column of migration `0002`; the stale repository copy
predates that column — modelled from the spec: §4.1,
"`requeue_on_expiry(task, jitter ∈ [0,5]s)` — status queued,
`next_eligible_at = now + jitter`, `attempt unchanged`,
`started_at := null`" (asserted by `test_p14_running_state.py`). -/
def requeue_on_expiry (db : DB) (now : Time) (tenant_id task_id : String)
    (jitter_seconds : Int) : Option TaskRow × DB :=
  match dbGetTask db tenant_id task_id with
  | none => (none, db)
  | some task =>
    let attempt := task.attempt
    let next_eligible_at := now + jitter_seconds
    let db' := dbUpdateTask db tenant_id task_id (fun t =>
      { t with
        status := .queued
        attempt := attempt
        next_eligible_at := some next_eligible_at
        updated_at := now
        started_at := none })
    (dbGetTask db' tenant_id task_id, db')

/-- `TaskRepository.cancel`: no-op on missing or terminal tasks, otherwise
a canceled `TaskResult` and `update_status`. -/
def taskRepoCancel (db : DB) (now : Time) (tenant_id task_id : String)
    (reason : Option String) : Option TaskRow × DB :=
  match dbGetTask db tenant_id task_id with
  | none => (none, db)
  | some task =>
    if task.status.is_terminal then (some task, db)
    else
      let result : TaskResult :=
        { outcome := .canceled
          error := match reason with
            | some r => some (Json.jobj [("reason", .str r)])
            | none => none
          completed_at := now }
      let db' := updateTaskStatus db now tenant_id task_id .canceled
        (some result) none
      (dbGetTask db' tenant_id task_id, db')

end AsyncGate

namespace AsyncGate

/-! ## LeaseRepository -/

/-- Claim ordering: priority descending, `created_at` ascending. -/
def claimOrder (a b : TaskRow) : Bool :=
  if a.priority == b.priority then timeLeB a.created_at b.created_at
  else decide (b.priority < a.priority)

/-- The row selection of `LeaseRepository.claim_next`: queued, eligible
(`next_eligible_at` null or ≤ now), optionally restricted to
`accept_types`, ordered by (priority desc, created_at asc), at most
`max_tasks` rows. -/
def claimSelect (db : DB) (now : Time) (tenant_id : String)
    (accept_types : Option (List String)) (max_tasks : Nat) : List TaskRow :=
  let eligible := db.tasks.filter (fun t =>
    t.tenant_id == tenant_id && t.status == TaskStatus.queued &&
    (match t.next_eligible_at with
     | none => true
     | some e => timeLeB e now) &&
    (match accept_types with
     | some types => if !types.isEmpty then types.contains t.type else true
     | none => true))
  ((eligible.insertionSort (fun a b => claimOrder a b = true)).take max_tasks)

/-- Capability filtering inside the claim loop: a task with required
capabilities is skipped unless they are a subset of the worker's. -/
def capabilitiesMatch (task_caps : List String)
    (capabilities : Option (List String)) : Bool :=
  if !task_caps.isEmpty then
    match capabilities with
    | some caps =>
      if !caps.isEmpty then task_caps.all (fun c => caps.contains c)
      else false
    | none => false
  else true

/-- The per-task body of the claim loop: insert a lease row, flip the task
to leased. -/
def claimLoop (tenant_id worker_id : String) (now expires_at : Time)
    (capabilities : Option (List String)) :
    DB → List TaskRow → List String → List LeaseRow → List LeaseRow × DB
  | db, [], _, acc => (acc.reverse, db)
  | db, task :: rest, lease_ids, acc =>
    if capabilitiesMatch task.requirements.capabilities capabilities then
      match lease_ids with
      | [] => (acc.reverse, db)
      | lease_id :: lease_ids' =>
        let lease : LeaseRow :=
          { lease_id := lease_id
            tenant_id := tenant_id
            task_id := task.task_id
            worker_id := worker_id
            expires_at := expires_at
            created_at := now
            acquired_at := now
            renewal_count := 0 }
        let db' := dbUpdateTask db tenant_id task.task_id (fun t =>
          { t with status := .leased, updated_at := now })
        claimLoop tenant_id worker_id now expires_at capabilities
          { db' with leases := db'.leases ++ [lease] } rest lease_ids' (lease :: acc)
    else
      claimLoop tenant_id worker_id now expires_at capabilities db rest lease_ids acc

/-- `LeaseRepository.claim_next` (`db/repositories.py`, lines 338–420):
TTL clamped to the max, select-for-update of eligible rows, then the
capability-filtered lease-insert loop.  `lease_ids` supplies the `uuid4()`
results. -/
def claim_next (S : Settings) (db : DB) (lease_ids : List String) (now : Time)
    (tenant_id worker_id : String) (capabilities : Option (List String))
    (accept_types : Option (List String)) (max_tasks : Nat)
    (lease_ttl_seconds : Option Nat) : List LeaseRow × DB :=
  let ttl := min (orTruthy lease_ttl_seconds S.default_lease_ttl_seconds)
    S.max_lease_ttl_seconds
  let expires_at := now + (ttl : Int)
  let tasks := claimSelect db now tenant_id accept_types max_tasks
  claimLoop tenant_id worker_id now expires_at capabilities db tasks lease_ids []

/-- `LeaseRepository.validate`: the lease row must match tenant, task,
lease id and worker, and must not yet be expired (`expires_at > now`). -/
def leaseValidate (db : DB) (now : Time)
    (tenant_id task_id lease_id worker_id : String) : Option LeaseRow :=
  db.leases.find? (fun l =>
    l.tenant_id == tenant_id && l.task_id == task_id &&
    l.lease_id == lease_id && l.worker_id == worker_id &&
    timeLtB now l.expires_at)

/-- `LeaseRepository.release`: delete the lease row(s) of the task. -/
def leaseRelease (db : DB) (tenant_id task_id : String) : DB :=
  { db with leases := db.leases.filter (fun l =>
      !(l.tenant_id == tenant_id && l.task_id == task_id)) }

/-- `LeaseRepository.renew` (`db/repositories.py`, lines 453–537): the row
is looked up by tenant, task, lease id and worker — with **no**
`expires_at` condition; `None` when missing; the renewal-count and
absolute-lifetime limits raise their distinguished kinds; otherwise
`expires_at` advances by the clamped extension and `renewal_count`
increments. -/
def leaseRenew (S : Settings) (db : DB) (now : Time)
    (tenant_id task_id lease_id worker_id : String)
    (extend_by_seconds : Option Nat) :
    Except EngineError (Option (LeaseRow × DB)) :=
  match db.leases.find? (fun l =>
      l.tenant_id == tenant_id && l.task_id == task_id &&
      l.lease_id == lease_id && l.worker_id == worker_id) with
  | none => .ok none
  | some lease_row =>
    if S.max_lease_renewals ≤ lease_row.renewal_count then
      .error (.leaseRenewalLimitExceeded lease_row.renewal_count S.max_lease_renewals)
    else
      let lifetime_seconds := now - lease_row.acquired_at
      if (S.max_lease_lifetime_seconds : Int) ≤ lifetime_seconds then
        .error (.leaseLifetimeExceeded lifetime_seconds S.max_lease_lifetime_seconds)
      else
        let extend_by := min (orTruthy extend_by_seconds S.default_lease_ttl_seconds)
          S.max_lease_ttl_seconds
        let new_expires_at := now + (extend_by : Int)
        let db' := { db with leases := db.leases.map (fun l =>
          if l.lease_id == lease_row.lease_id then
            { l with expires_at := new_expires_at,
                     renewal_count := l.renewal_count + 1 }
          else l) }
        .ok (some ({ lease_row with expires_at := new_expires_at }, db'))

/-- `LeaseRepository.get_expired`: expired leases joined to their tasks,
optionally filtered to one owning instance. -/
def getExpired (db : DB) (now : Time) (limit : Nat)
    (instance_id : Option String) : List LeaseRow :=
  (db.leases.filter (fun l =>
    timeLtB l.expires_at now &&
    (match dbGetTask db l.tenant_id l.task_id with
     | some t =>
       match instance_id with
       | some iid => t.asyncgate_instance == some iid
       | none => true
     | none => false))).take limit

end AsyncGate

namespace AsyncGate

/-! ## Receipt bodies (`models/receipt.py`: `ReceiptBody`) -/

/-- `.value` of a task status. -/
def TaskStatus.value : TaskStatus → String
  | .queued => "queued"
  | .leased => "leased"
  | .running => "running"
  | .succeeded => "succeeded"
  | .failed => "failed"
  | .canceled => "canceled"

/-- `TaskRequirements.model_dump()`. -/
def reqJson (r : TaskRequirements) : Json :=
  Json.jobj [("capabilities", Json.jarr (r.capabilities.map .str)),
    ("tags", Json.jarr (r.tags.map .str))]

/-- `ReceiptBody.task_assigned` as `create_task` fills it. -/
def taskAssignedBody (type : String) (req : TaskRequirements) : Json :=
  Json.jobj [("instructions", .str ("Execute task type: " ++ type)),
    ("requirements", reqJson req),
    ("success_criteria", .null),
    ("result_delivery", .str "return_payload"),
    ("timeouts", Json.jobj [])]

/-- `ReceiptBody.task_accepted` as `lease_next` fills it. -/
def taskAcceptedBody (worker_capabilities : List String) : Json :=
  Json.jobj [("worker_capabilities", Json.jarr (worker_capabilities.map .str)),
    ("expected_duration", .null)]

/-- `ReceiptBody.task_started`. -/
def taskStartedBody (started_at : Time) : Json :=
  Json.jobj [("started_at", .str (timeIso started_at))]

/-- `ReceiptBody.task_completed` as `complete` fills it (no
`delivery_proof` argument on that call path). -/
def taskCompletedBody (result : Json) (artifacts : Option Json) : Json :=
  Json.jobj [("result_summary", .str "Task completed successfully"),
    ("result_payload", result),
    ("artifacts", optJson artifacts),
    ("delivery_proof", .null),
    ("completion_metadata", Json.jobj [])]

/-- `ReceiptBody.task_failed` as `fail` fills it. -/
def taskFailedBody (error : Json) : Json :=
  Json.jobj [("error", error),
    ("retry_recommended", .bool false),
    ("retry_after_seconds", .null)]

/-- `ReceiptBody.task_result_ready` as `_emit_result_ready_receipt` fills
it from the (terminal) task row. -/
def taskResultReadyBody (t : TaskRow) : Json :=
  Json.jobj [("status", .str t.status.value),
    ("result_payload", optJson (t.result.bind (fun r => r.result))),
    ("error", optJson (t.result.bind (fun r => r.error))),
    ("artifacts", optJson (t.result.bind (fun r => r.artifacts))),
    ("how_to_retrieve", .null)]

/-- The inline `task.retry_scheduled` body of `fail`'s requeue path. -/
def retryScheduledBody (error : Json) (attempt max_attempts : Nat)
    (next_eligible_at : Option Time) : Json :=
  Json.jobj [("reason", .str "Worker reported retryable failure"),
    ("error", error),
    ("requeued", .bool true),
    ("attempt", .num attempt),
    ("max_attempts", .num max_attempts),
    ("next_eligible_at", match next_eligible_at with
      | some t => .str (timeIso t)
      | none => .null)]

/-- The inline `task.canceled` body of `cancel_task`. -/
def canceledBody (principal : Principal) (reason : Option String)
    (now : Time) : Json :=
  Json.jobj [("canceled_by", Json.jobj [("kind", .str principal.kind.value),
      ("id", .str principal.id)]),
    ("reason", optStrJson reason),
    ("canceled_at", .str (timeIso now))]

/-- `ReceiptBody.lease_expired`. -/
def leaseExpiredBody (task_id previous_worker_id : String) (attempt : Nat) : Json :=
  Json.jobj [("task_id", .str task_id),
    ("previous_worker_id", .str previous_worker_id),
    ("attempt", .num attempt),
    ("requeued", .bool true)]

end AsyncGate

namespace AsyncGate

/-! ## Engine operations (`engine/core.py`) -/

/-- `Task.can_transition_to`.  The copy of `models/task.py` in the sources
predates the running status.  Modelled from the spec: transition table
§4.3.9 (`queued → leased`, `leased → running`, `leased|running →
succeeded|failed|queued`, `queued|leased|running → canceled`, terminal →
nothing), matching `test_p14_running_state.py`. -/
def can_transition_to (current new_status : TaskStatus) : Bool :=
  match current with
  | .queued => new_status == .leased || new_status == .canceled
  | .leased =>
      new_status == .running || new_status == .succeeded ||
      new_status == .failed || new_status == .queued || new_status == .canceled
  | .running =>
      new_status == .succeeded || new_status == .failed ||
      new_status == .queued || new_status == .canceled
  | .succeeded => false
  | .failed => false
  | .canceled => false

/-- `AsyncGateEngine.create_task` (`engine/core.py`, lines 219–287):
normalize the creator, reject external use of internal ids, require
`principal_ai`, insert (idempotency collision returns the existing row),
resolve the obligation owner and emit `task.assigned` from the service
principal. -/
def createTask (S : Settings) (db : DB) (task_id receipt_id : String)
    (now : Time) (trace_id : String) (tenant_id : String) (type : String)
    (payload : Json) (payload_pointer : Option String) (created_by : Principal)
    (principal_ai : String) (requirements : Option TaskRequirements)
    (expected_outcome_kind expected_artifact_mime : Option String)
    (priority : Option Int) (idempotency_key : Option String)
    (max_attempts retry_backoff_seconds delay_seconds : Option Nat)
    (actor_is_internal : Bool) :
    Except EngineError (String × TaskStatus × DB) :=
  let created_by := normalizePrincipal created_by
  if is_internal_principal_id created_by.id && !actor_is_internal then
    .error .unauthorized
  else if principal_ai == "" then
    .error .principalAiRequired
  else
    let (task, db1) := taskRepoCreate S db task_id now tenant_id type payload
      payload_pointer created_by (some principal_ai) requirements
      expected_outcome_kind expected_artifact_mime
      (match priority with
       | some p => if p != 0 then p else S.default_priority
       | none => S.default_priority)
      idempotency_key max_attempts retry_backoff_seconds delay_seconds
    let owner := resolveObligationOwner created_by
    match emitReceipt S db1 receipt_id now trace_id tenant_id .task_assigned
        servicePrincipal owner (some task.task_id) none none
        (some (taskAssignedBody type task.requirements)) none with
    | .error e => .error e
    | .ok (_, db2) => .ok (task.task_id, task.status, db2)

/-- The `task.accepted` emission loop of `lease_next` (one pass per
granted lease; a missing task row is skipped as in the source). -/
def acceptLoop (S : Settings) (now : Time) (trace_id : String)
    (tenant_id : String) (capabilities : Option (List String)) :
    DB → List LeaseRow → List String → Except EngineError DB
  | db, [], _ => .ok db
  | db, lease :: rest, rids =>
    match dbGetTask db tenant_id lease.task_id with
    | none => acceptLoop S now trace_id tenant_id capabilities db rest rids
    | some task =>
      match rids with
      | [] => .ok db
      | rid :: rids' =>
        let owner_hint := resolveObligationOwner task.created_by
        let obligation := engineGetTaskObligation db tenant_id task.task_id
          (some owner_hint)
        let owner := match obligation with
          | some o => o.to_
          | none => owner_hint
        let parents := obligation.map (fun o => [o.receipt_id])
        match emitReceipt S db rid now trace_id tenant_id .task_accepted
            ⟨.worker, lease.worker_id⟩ owner (some task.task_id)
            (some lease.lease_id) none
            (some (taskAcceptedBody (capabilities.getD []))) parents with
        | .error e => .error e
        | .ok (_, db') =>
          acceptLoop S now trace_id tenant_id capabilities db' rest rids'

/-- `AsyncGateEngine.lease_next` (`engine/core.py`, lines 493–566): cap
`max_tasks` at 10, claim, then emit one `task.accepted` per granted lease,
addressed to the obligation owner with the `task.assigned` receipt as
parent. -/
def leaseNext (S : Settings) (db : DB) (lease_ids accept_rids : List String)
    (now : Time) (trace_id : String) (tenant_id worker_id : String)
    (capabilities accept_types : Option (List String)) (max_tasks : Nat)
    (lease_ttl_seconds : Option Nat) :
    Except EngineError (List LeaseRow × DB) :=
  let max_tasks := min max_tasks 10
  let (leases, db1) := claim_next S db lease_ids now tenant_id worker_id
    capabilities accept_types max_tasks lease_ttl_seconds
  match acceptLoop S now trace_id tenant_id capabilities db1 leases accept_rids with
  | .error e => .error e
  | .ok db2 => .ok (leases, db2)

/-- `AsyncGateEngine.renew_lease` (`engine/core.py`, lines 568–596): the
task must exist with status leased or running, then
`LeaseRepository.renew` enforces the limits; a missing row surfaces as
`LeaseInvalidOrExpired`. -/
def renewLease (S : Settings) (db : DB) (now : Time)
    (tenant_id worker_id task_id lease_id : String)
    (extend_by_seconds : Option Nat) : Except EngineError (Time × DB) :=
  match dbGetTask db tenant_id task_id with
  | none => .error (.taskNotFound task_id)
  | some task =>
    if !(task.status == TaskStatus.leased || task.status == TaskStatus.running) then
      .error (.leaseInvalidOrExpired task_id lease_id)
    else
      match leaseRenew S db now tenant_id task_id lease_id worker_id
          extend_by_seconds with
      | .error e => .error e
      | .ok none => .error (.leaseInvalidOrExpired task_id lease_id)
      | .ok (some (lease, db')) => .ok (lease.expires_at, db')

/-- `AsyncGateEngine._transition_to_running` (`engine/core.py`, lines
1119–1157): no-op on running, reject from anything but leased, otherwise
set status running keeping the first `started_at` and emit `task.started`.
-/
def transitionToRunning (S : Settings) (db : DB) (receipt_id : String)
    (now : Time) (trace_id : String) (tenant_id : String) (task : TaskRow)
    (worker_id lease_id : String) (owner : Principal)
    (parents : Option (List String)) : Except EngineError (Time × DB) :=
  if task.status == TaskStatus.running then
    .ok (task.started_at.getD now, db)
  else if task.status != TaskStatus.leased then
    .error (.invalidStateTransition task.status .running)
  else
    let started_at := task.started_at.getD now
    let db1 := updateTaskStatus db now tenant_id task.task_id .running none
      (some started_at)
    match emitReceipt S db1 receipt_id now trace_id tenant_id .task_started
        ⟨.worker, worker_id⟩ owner (some task.task_id) (some lease_id) none
        (some (taskStartedBody started_at)) parents with
    | .error e => .error e
    | .ok (_, db2) => .ok (started_at, db2)

/-- `AsyncGateEngine.start_task` (`engine/core.py`, lines 649–686):
validate the lease, return the stored `started_at` when already running,
otherwise transition to running (emitting `task.started`). -/
def startTask (S : Settings) (db : DB) (receipt_id : String) (now : Time)
    (trace_id : String) (tenant_id worker_id task_id lease_id : String) :
    Except EngineError (Option Time × DB) :=
  match leaseValidate db now tenant_id task_id lease_id worker_id with
  | none => .error (.leaseInvalidOrExpired task_id lease_id)
  | some _ =>
    match dbGetTask db tenant_id task_id with
    | none => .error (.taskNotFound task_id)
    | some task =>
      if task.status == TaskStatus.running then
        .ok (task.started_at, db)
      else
        let owner_hint := resolveObligationOwner task.created_by
        let obligation := engineGetTaskObligation db tenant_id task_id
          (some owner_hint)
        let owner := match obligation with
          | some o => o.to_
          | none => owner_hint
        let parents := obligation.map (fun o => [o.receipt_id])
        match transitionToRunning S db receipt_id now trace_id tenant_id task
            worker_id lease_id owner parents with
        | .error e => .error e
        | .ok (started_at, db') => .ok (some started_at, db')

/-- `AsyncGateEngine.report_progress` (`engine/core.py`, lines 598–647):
validate the lease, transition a leased task to running (emitting
`task.started`), then emit `task.progress`.  The last-writer-wins progress
row is orthogonal to every claim and not modelled. -/
def reportProgress (S : Settings) (db : DB)
    (started_rid progress_rid : String) (now : Time) (trace_id : String)
    (tenant_id worker_id task_id lease_id : String) (progress_data : Json) :
    Except EngineError DB :=
  match leaseValidate db now tenant_id task_id lease_id worker_id with
  | none => .error (.leaseInvalidOrExpired task_id lease_id)
  | some _ =>
    match dbGetTask db tenant_id task_id with
    | none => .error (.taskNotFound task_id)
    | some task =>
      let owner_hint := resolveObligationOwner task.created_by
      let obligation := engineGetTaskObligation db tenant_id task_id
        (some owner_hint)
      let owner := match obligation with
        | some o => o.to_
        | none => owner_hint
      let parents := obligation.map (fun o => [o.receipt_id])
      let afterRun : Except EngineError DB :=
        if task.status == TaskStatus.leased then
          match transitionToRunning S db started_rid now trace_id tenant_id
              task worker_id lease_id owner parents with
          | .error e => .error e
          | .ok (_, db') => .ok db'
        else .ok db
      match afterRun with
      | .error e => .error e
      | .ok db1 =>
        match emitReceipt S db1 progress_rid now trace_id tenant_id
            .task_progress ⟨.worker, worker_id⟩ owner (some task_id)
            (some lease_id) none
            (some (Json.jobj [("progress", progress_data)])) parents with
        | .error e => .error e
        | .ok (_, db2) => .ok db2

end AsyncGate

namespace AsyncGate

/-- `AsyncGateEngine.complete` (`engine/core.py`, lines 688–760): validate
the lease, require a transition to succeeded, fetch the obligation (or
fail), then atomically set the result, release the lease, emit
`task.completed` and `task.result_ready`; any error rolls the savepoint
back (here: an `.error` with no state change). -/
def engineComplete (S : Settings) (db : DB) (rid_completed rid_ready : String)
    (now : Time) (trace_id : String)
    (tenant_id worker_id task_id lease_id : String)
    (result : Json) (artifacts : Option Json) : Except EngineError DB :=
  match leaseValidate db now tenant_id task_id lease_id worker_id with
  | none => .error (.leaseInvalidOrExpired task_id lease_id)
  | some _ =>
    match dbGetTask db tenant_id task_id with
    | none => .error (.taskNotFound task_id)
    | some task =>
      if !can_transition_to task.status .succeeded then
        .error (.invalidStateTransition task.status .succeeded)
      else
        let owner_hint := resolveObligationOwner task.created_by
        match engineGetTaskObligation db tenant_id task_id (some owner_hint) with
        | none => .error (.missingObligation task_id)
        | some obligation =>
          let owner := obligation.to_
          let parents := [obligation.receipt_id]
          let task_result : TaskResult :=
            { outcome := .succeeded
              result := some result
              artifacts := artifacts
              completed_at := now }
          let db1 := updateTaskStatus db now tenant_id task_id .succeeded
            (some task_result) none
          let db2 := leaseRelease db1 tenant_id task_id
          match emitReceipt S db2 rid_completed now trace_id tenant_id
              .task_completed ⟨.worker, worker_id⟩ owner (some task_id)
              (some lease_id) none
              (some (taskCompletedBody result artifacts)) (some parents) with
          | .error e => .error e
          | .ok (_, db3) =>
            match dbGetTask db3 tenant_id task_id with
            | none => .error (.taskNotFound task_id)
            | some task' =>
              match emitReceipt S db3 rid_ready now trace_id tenant_id
                  .task_result_ready servicePrincipal owner (some task_id)
                  none none (some (taskResultReadyBody task')) (some parents) with
              | .error e => .error e
              | .ok (_, db4) => .ok db4

/-- `AsyncGateEngine.fail` (`engine/core.py`, lines 762–866): validate the
lease, decide `requeue = retryable ∧ attempt+1 < max_attempts`, then
atomically release the lease and either requeue with backoff (emitting
`task.retry_scheduled`) or store the terminal failure (emitting
`task.failed` and `task.result_ready`). -/
def engineFail (S : Settings) (db : DB) (rid1 rid2 : String) (now : Time)
    (trace_id : String) (tenant_id worker_id task_id lease_id : String)
    (error : Json) (retryable : Bool) :
    Except EngineError (Bool × Option Time × DB) :=
  match leaseValidate db now tenant_id task_id lease_id worker_id with
  | none => .error (.leaseInvalidOrExpired task_id lease_id)
  | some _ =>
    match dbGetTask db tenant_id task_id with
    | none => .error (.taskNotFound task_id)
    | some task =>
      let should_requeue := retryable && task.attempt + 1 < task.max_attempts
      let owner_hint := resolveObligationOwner task.created_by
      match engineGetTaskObligation db tenant_id task_id (some owner_hint) with
      | none => .error (.missingObligation task_id)
      | some obligation =>
        let owner := obligation.to_
        let parents := [obligation.receipt_id]
        let db1 := leaseRelease db tenant_id task_id
        if should_requeue then
          match requeue_with_backoff S db1 now tenant_id task_id true with
          | (none, _) => .error (.taskNotFound task_id)
          | (some task', db2) =>
            let next_eligible_at := task'.next_eligible_at
            match emitReceipt S db2 rid1 now trace_id tenant_id
                .task_retry_scheduled ⟨.worker, worker_id⟩ owner
                (some task_id) (some lease_id) none
                (some (retryScheduledBody error task'.attempt
                  task'.max_attempts next_eligible_at)) (some parents) with
            | .error e => .error e
            | .ok (_, db3) => .ok (true, next_eligible_at, db3)
        else
          let task_result : TaskResult :=
            { outcome := .failed
              error := some error
              completed_at := now }
          let db2 := updateTaskStatus db1 now tenant_id task_id .failed
            (some task_result) none
          match emitReceipt S db2 rid1 now trace_id tenant_id .task_failed
              ⟨.worker, worker_id⟩ owner (some task_id) (some lease_id) none
              (some (taskFailedBody error)) (some parents) with
          | .error e => .error e
          | .ok (_, db3) =>
            match dbGetTask db3 tenant_id task_id with
            | none => .error (.taskNotFound task_id)
            | some task' =>
              match emitReceipt S db3 rid2 now trace_id tenant_id
                  .task_result_ready servicePrincipal owner (some task_id)
                  none none (some (taskResultReadyBody task')) (some parents) with
              | .error e => .error e
              | .ok (_, db4) => .ok (false, none, db4)

/-- `AsyncGateEngine.cancel_task` (`engine/core.py`, lines 335–404):
resolve the obligation (or fail), authorize (owner only, internal for
system-owned), no-op on terminal tasks, then atomically release the
lease, cancel and emit `task.canceled` plus `task.result_ready`. -/
def engineCancelTask (S : Settings) (db : DB) (rid_canceled rid_ready : String)
    (now : Time) (trace_id : String) (tenant_id task_id : String)
    (principal : Principal) (reason : Option String)
    (actor_is_internal : Bool) :
    Except EngineError (Bool × TaskStatus × DB) :=
  let principal := normalizePrincipal principal
  match dbGetTask db tenant_id task_id with
  | none => .error (.taskNotFound task_id)
  | some task =>
    let owner_hint := resolveObligationOwner task.created_by
    match engineGetTaskObligation db tenant_id task_id (some owner_hint) with
    | none => .error (.missingObligation task_id)
    | some obligation =>
      let owner := obligation.to_
      let parents := [obligation.receipt_id]
      if !actor_is_internal &&
          (owner.kind == PrincipalKind.system && owner.id == SYSTEM_PRINCIPAL_ID) then
        .error .unauthorized
      else if !actor_is_internal &&
          (owner.id != principal.id || owner.kind != principal.kind) then
        .error .unauthorized
      else if task.status.is_terminal then
        .ok (false, task.status, db)
      else
        let db1 := leaseRelease db tenant_id task_id
        match taskRepoCancel db1 now tenant_id task_id reason with
        | (none, _) => .error (.taskNotFound task_id)
        | (some task', db2) =>
          match emitReceipt S db2 rid_canceled now trace_id tenant_id
              .task_canceled principal owner (some task'.task_id) none none
              (some (canceledBody principal reason now)) (some parents) with
          | .error e => .error e
          | .ok (_, db3) =>
            match emitReceipt S db3 rid_ready now trace_id tenant_id
                .task_result_ready servicePrincipal owner (some task'.task_id)
                none none (some (taskResultReadyBody task')) (some parents) with
            | .error e => .error e
            | .ok (_, db4) => .ok (true, task'.status, db4)

/-- `AsyncGateEngine.ack_receipt` (`engine/core.py`, lines 464–487):
append a `receipt.acknowledged` receipt citing the acked receipt. -/
def engineAckReceipt (S : Settings) (db : DB) (rid : String) (now : Time)
    (trace_id : String) (tenant_id receipt_id : String)
    (principal : Principal) : Except EngineError DB :=
  let principal := normalizePrincipal principal
  match emitReceipt S db rid now trace_id tenant_id .receipt_acknowledged
      principal servicePrincipal none none none
      (some (Json.jobj [("acknowledged_receipt_id", .str receipt_id)]))
      (some [receipt_id]) with
  | .error e => .error e
  | .ok (_, db') => .ok db'

/-- One iteration of the `expire_leases` loop (`engine/core.py`, lines
872–989): skip missing or terminal tasks, otherwise requeue on expiry
(attempt untouched), release the lease and emit `lease.expired`; a
per-lease error rolls the savepoint back and the loop continues
(modelled by returning the state unchanged).  The `task.escalated` branch
is a no-op under the default `escalation_enabled=False`. -/
def expireOneLease (S : Settings) (db : DB) (rid_expired : String)
    (now : Time) (trace_id : String) (lease : LeaseRow) (jitter : Int) : DB :=
  match dbGetTask db lease.tenant_id lease.task_id with
  | none => db
  | some task =>
    if task.status.is_terminal then db
    else
      let owner_hint := resolveObligationOwner task.created_by
      let obligation := engineGetTaskObligation db lease.tenant_id
        lease.task_id (some owner_hint)
      let owner := match obligation with
        | some o => o.to_
        | none => owner_hint
      let parents := obligation.map (fun o => [o.receipt_id])
      let (_, db1) := requeue_on_expiry db now lease.tenant_id lease.task_id jitter
      let db2 := leaseRelease db1 lease.tenant_id lease.task_id
      match emitReceipt S db2 rid_expired now trace_id lease.tenant_id
          .lease_expired servicePrincipal owner (some task.task_id)
          (some lease.lease_id) none
          (some (leaseExpiredBody task.task_id lease.worker_id task.attempt))
          parents with
      | .error _ => db
      | .ok (_, db3) => db3

/-- `AsyncGateEngine.list_open_obligations` (`engine/core.py`, lines
1056–1086): normalize the principal, then the repository query. -/
def engineListOpenObligations (db : DB) (tenant_id : String)
    (principal : Principal) (since_receipt_id : Option String)
    (limit : Nat) : List ReceiptRow × Option String :=
  let principal := normalizePrincipal principal
  list_open_obligations db tenant_id principal.kind principal.id
    since_receipt_id limit

end AsyncGate

namespace AsyncGate

/-! ## The rules-based termination notion and spec-side queries -/

/-- `models/termination.py`: `can_terminate` — `T` terminates `O` iff `T`'s
type is registered for `O`'s type, `T.parents` contains `O.id`, and both
share a tenant. -/
def can_terminate (terminal_receipt obligation_receipt : ReceiptRow) : Bool :=
  (get_terminal_types obligation_receipt.receipt_type).contains
    terminal_receipt.receipt_type &&
  terminal_receipt.parents.contains obligation_receipt.receipt_id &&
  terminal_receipt.tenant_id == obligation_receipt.tenant_id

/-- Spec-side `has_terminator` (claim comparison definition, following the
spec's words): a terminator exists for the obligation iff some receipt
`can_terminate`s it. -/
def has_terminator_spec (db : DB) (tenant_id parent_receipt_id : String) : Bool :=
  match db.receipts.find? (fun o =>
      o.tenant_id == tenant_id && o.receipt_id == parent_receipt_id) with
  | some o => db.receipts.any (fun t => can_terminate t o)
  | none => false

/-- Spec-side open-obligations listing (claim comparison definition,
following the spec's words): exactly the obligation-type receipts addressed
to the principal for which no receipt `can_terminate`s them. -/
def list_open_obligations_spec (db : DB) (tenant_id : String)
    (to_kind : PrincipalKind) (to_id : String) : List ReceiptRow :=
  db.receipts.filter (fun r =>
    r.tenant_id == tenant_id && r.to_.kind == to_kind && r.to_.id == to_id &&
    obligation_types.contains r.receipt_type &&
    !(db.receipts.any (fun t => can_terminate t r)))

/-! ## The engine as a transition system

One constructor per public engine operation; the explicit arguments stand
for the injected clock, trace id and `uuid4()` draws. -/

/-- One engine step: some public operation succeeds on `db` yielding `db'`
(a failing call leaves the store untouched, so error outcomes are not
steps). -/
inductive Step (S : Settings) : DB → DB → Prop where
  | create {db db' : DB} (tid rid : String) (now : Time)
      (tr tenant type : String) (payload : Json) (pp : Option String)
      (cb : Principal) (pai : String) (req : Option TaskRequirements)
      (eok eam : Option String) (prio : Option Int) (ikey : Option String)
      (ma rb ds : Option Nat) (internal : Bool) (tid' : String)
      (st : TaskStatus)
      (h : createTask S db tid rid now tr tenant type payload pp cb pai req
        eok eam prio ikey ma rb ds internal = .ok (tid', st, db')) :
      Step S db db'
  | lease {db db' : DB} (lease_ids accept_rids : List String) (now : Time)
      (tr tenant worker : String) (caps types : Option (List String))
      (max_tasks : Nat) (ttl : Option Nat) (ls : List LeaseRow)
      (h : leaseNext S db lease_ids accept_rids now tr tenant worker caps
        types max_tasks ttl = .ok (ls, db')) :
      Step S db db'
  | renew {db db' : DB} (now : Time) (tenant worker task lease : String)
      (extend : Option Nat) (t : Time)
      (h : renewLease S db now tenant worker task lease extend = .ok (t, db')) :
      Step S db db'
  | start {db db' : DB} (rid : String) (now : Time)
      (tr tenant worker task lease : String) (st : Option Time)
      (h : startTask S db rid now tr tenant worker task lease = .ok (st, db')) :
      Step S db db'
  | progress {db db' : DB} (rid1 rid2 : String) (now : Time)
      (tr tenant worker task lease : String) (data : Json)
      (h : reportProgress S db rid1 rid2 now tr tenant worker task lease
        data = .ok db') :
      Step S db db'
  | complete {db db' : DB} (rid1 rid2 : String) (now : Time)
      (tr tenant worker task lease : String) (result : Json)
      (artifacts : Option Json)
      (h : engineComplete S db rid1 rid2 now tr tenant worker task lease
        result artifacts = .ok db') :
      Step S db db'
  | fail {db db' : DB} (rid1 rid2 : String) (now : Time)
      (tr tenant worker task lease : String) (error : Json)
      (retryable : Bool) (requeued : Bool) (ne : Option Time)
      (h : engineFail S db rid1 rid2 now tr tenant worker task lease error
        retryable = .ok (requeued, ne, db')) :
      Step S db db'
  | cancel {db db' : DB} (rid1 rid2 : String) (now : Time)
      (tr tenant task : String) (p : Principal) (reason : Option String)
      (internal ok : Bool) (st : TaskStatus)
      (h : engineCancelTask S db rid1 rid2 now tr tenant task p reason
        internal = .ok (ok, st, db')) :
      Step S db db'
  | ack {db db' : DB} (rid : String) (now : Time) (tr tenant acked : String)
      (p : Principal)
      (h : engineAckReceipt S db rid now tr tenant acked p = .ok db') :
      Step S db db'
  | expire {db : DB} (rid : String) (now : Time) (tr : String)
      (lease : LeaseRow) (jitter : Int) :
      Step S db (expireOneLease S db rid now tr lease jitter)

/-- States reachable from the empty store through engine operations. -/
inductive Reach (S : Settings) : DB → Prop where
  | init : Reach S {}
  | step {db db' : DB} : Reach S db → Step S db db' → Reach S db'

end AsyncGate

namespace AsyncGate

/-! ## Basic lemmas about the store operations -/

/-- A successful `ReceiptRepository.create` never touches tasks or leases,
and either returns an existing deduplicated row (store untouched) or
appends exactly the returned row. -/
theorem receiptCreate_ok (S : Settings) (db : DB) (rid : String) (now : Time)
    (tenant : String) (rt : ReceiptType) (fp tp : Principal)
    (tid lid sid : Option String) (parents : Option (List String))
    (body : Option Json) (rhash : Option String) (r : ReceiptRow) (db' : DB)
    (h : receiptCreate S db rid now tenant rt fp tp tid lid sid parents body
      rhash = .ok (r, db')) :
    db'.tasks = db.tasks ∧ db'.leases = db.leases ∧
    (db' = db ∨ db'.receipts = db.receipts ++ [r]) := by
  simp only [receiptCreate, receiptCreate.receiptCreateInsert] at h
  repeat' split at h
  all_goals first
    | exact (Except.noConfusion h)
    | (cases h; exact ⟨rfl, rfl, Or.inl rfl⟩)
    | (cases h; exact ⟨rfl, rfl, Or.inr rfl⟩)

end AsyncGate

namespace AsyncGate

/-- Full characterization of a successful `create` with a body and no
caller hash (the `_emit_receipt` path): the returned row is appended and
its fields are the arguments, with `parents` possibly stripped by the
locatability branch. -/
theorem receiptCreate_noHash_ok (S : Settings) (db : DB) (rid : String)
    (now : Time) (tenant : String) (rt : ReceiptType) (fp tp : Principal)
    (tid lid sid : Option String) (parents : Option (List String))
    (bp : Json) (r : ReceiptRow) (db' : DB)
    (h : receiptCreate S db rid now tenant rt fp tp tid lid sid parents
      (some bp) none = .ok (r, db')) :
    db'.tasks = db.tasks ∧ db'.leases = db.leases ∧
    db'.receipts = db.receipts ++ [r] ∧
    r.receipt_id = rid ∧ r.tenant_id = tenant ∧ r.receipt_type = rt ∧
    r.created_at = now ∧ r.from_ = fp ∧ r.to_ = tp ∧ r.task_id = tid ∧
    r.lease_id = lid ∧ r.body = bp ∧ r.hash = none ∧
    r.parents = (if rt == ReceiptType.task_completed &&
        !(bodyHasArtifacts bp || bodyHasDeliveryProof bp) then []
      else parents.getD []) := by
  simp only [receiptCreate, receiptCreate.receiptCreateInsert] at h
  repeat' split at h
  all_goals first
    | exact (Except.noConfusion h)
    | (cases h
       refine ⟨rfl, rfl, rfl, rfl, rfl, rfl, rfl, rfl, rfl, rfl, rfl, rfl, rfl, ?_⟩
       split <;> simp_all)

/-- The same characterization for `_emit_receipt`. -/
theorem emitReceipt_ok (S : Settings) (db : DB) (rid : String) (now : Time)
    (trace : String) (tenant : String) (rt : ReceiptType) (fp tp : Principal)
    (tid lid sid : Option String) (body : Option Json)
    (parents : Option (List String)) (r : ReceiptRow) (db' : DB)
    (h : emitReceipt S db rid now trace tenant rt fp tp tid lid sid body
      parents = .ok (r, db')) :
    db'.tasks = db.tasks ∧ db'.leases = db.leases ∧
    db'.receipts = db.receipts ++ [r] ∧
    r.receipt_id = rid ∧ r.tenant_id = tenant ∧ r.receipt_type = rt ∧
    r.created_at = now ∧ r.from_ = fp ∧ r.to_ = tp ∧ r.task_id = tid ∧
    r.lease_id = lid ∧ r.body = emitBodyPayload trace body ∧ r.hash = none ∧
    r.parents = (if rt == ReceiptType.task_completed &&
        !(bodyHasArtifacts (emitBodyPayload trace body) ||
          bodyHasDeliveryProof (emitBodyPayload trace body)) then []
      else parents.getD []) :=
  receiptCreate_noHash_ok S db rid now tenant rt fp tp tid lid sid parents
    (emitBodyPayload trace body) r db' h

end AsyncGate

namespace AsyncGate

/-! ## Concrete fixtures

Small concrete stores used by the counterexample and code-bug theorems. -/

/-- Fixture: an agent principal. -/
def exAgent : Principal := ⟨.agent, "a1"⟩

/-- Fixture: a `task.assigned` obligation receipt to `exAgent`. -/
def exObligation : ReceiptRow :=
  { tenant_id := "t"
    receipt_id := "r1"
    receipt_type := .task_assigned
    created_at := 100
    from_ := servicePrincipal
    to_ := exAgent
    task_id := some "task1" }

/-- Fixture: a non-terminator `task.progress` receipt citing the
obligation as parent. -/
def exProgressReceipt : ReceiptRow :=
  { tenant_id := "t"
    receipt_id := "r2"
    receipt_type := .task_progress
    created_at := 110
    from_ := ⟨.worker, "w1"⟩
    to_ := exAgent
    task_id := some "task1"
    parents := ["r1"] }

/-- Fixture: the obligation plus the progress receipt. -/
def exDB1 : DB := { receipts := [exObligation, exProgressReceipt] }

/-- **C1.**  `list_open_obligations` must return exactly the obligation
receipts with no receipt whose type is a registered terminator citing
them, and the same type condition must govern `has_terminator` — but the
code's batch termination check and `has_terminator` query match **any**
receipt whose `parents` contains the id, with no type filter.  On a store
holding one `task.assigned` obligation and one `task.progress` receipt
citing it, the code reports the obligation closed while the rules-based
reading (`can_terminate` of `models/termination.py`, asserted by
`test_p13_termination_invariants.py`) keeps it open. -/
theorem c1_open_obligations_ignore_terminator_type :
    list_open_obligations exDB1 "t" .agent "a1" none 50 = ([], none) ∧
    has_terminator exDB1 "t" "r1" = true ∧
    list_open_obligations_spec exDB1 "t" .agent "a1" = [exObligation] ∧
    has_terminator_spec exDB1 "t" "r1" = false :=
  ⟨rfl, rfl, rfl, rfl⟩

/-- Fixture: one engine emission of a `task.progress` receipt on the
store `exDB1` (first call). -/
def exEmitOnce : Except EngineError (ReceiptRow × DB) :=
  emitReceipt {} exDB1 "e1" 120 "trace-1" "t" .task_progress ⟨.worker, "w1"⟩
    exAgent (some "task1") (some "l1") none
    (some (Json.jobj [("progress", Json.jobj [("pct", .num 10)])]))
    (some ["r1"])

/-- Fixture: the identical emission repeated on the store left by the
first (same type, task, lease, principals, parents and body; only the
generated `uuid4` differs, as it does on every call). -/
def exEmitTwiceDB : DB :=
  match exEmitOnce with
  | .ok (_, db1) =>
    match emitReceipt {} db1 "e2" 120 "trace-1" "t" .task_progress
        ⟨.worker, "w1"⟩ exAgent (some "task1") (some "l1") none
        (some (Json.jobj [("progress", Json.jobj [("pct", .num 10)])]))
        (some ["r1"]) with
    | .ok (_, db2) => db2
    | .error _ => db1
  | .error _ => exDB1

/-- **C2.**  Emission through the engine is **not** idempotent:
`_emit_receipt` passes `receipt_hash=None` to `ReceiptRepository.create`,
whose dedup lookup is guarded by `if receipt_hash:`, so the second of two
identical emission calls inserts a second row (with `hash=NULL`) instead
of returning the first.  Evaluated on a concrete double emission: both
calls succeed, the store grows from 2 to 4 receipts, and the two stored
progress receipts are distinct rows with no hash. -/
theorem c2_engine_emission_not_deduplicated :
    exEmitOnce.isOk = true ∧
    (match exEmitOnce with
     | .ok (_, db1) => db1.receipts.length
     | .error _ => 0) = 3 ∧
    exEmitTwiceDB.receipts.length = 4 ∧
    exEmitTwiceDB.receipts.map (fun r => r.hash) = [none, none, none, none] ∧
    exEmitTwiceDB.receipts.map (fun r => r.receipt_id) = ["r1", "r2", "e1", "e2"] :=
  ⟨rfl, rfl, rfl, rfl, rfl⟩

end AsyncGate

namespace AsyncGate

/-- `find?` over a keyed in-place map: updating the matching rows moves
through `find?` when the update preserves the key predicate. -/
theorem find_map_ite {α : Type} (p : α → Bool) (f : α → α)
    (hf : ∀ a, p (f a) = p a) :
    ∀ l : List α,
      (l.map (fun a => if p a then f a else a)).find? p = (l.find? p).map f := by
  intro l
  induction l with
  | nil => rfl
  | cons a l ih =>
    by_cases hpa : p a = true
    · simp [List.find?_cons, hpa, hf]
    · simp only [Bool.not_eq_true] at hpa
      simp [List.find?_cons, hpa, hf, ih]

/-- `TaskRepository` updates preserve lookups up to the update function
(when it does not touch the key columns). -/
theorem dbGetTask_update (db : DB) (tenant task : String) (f : TaskRow → TaskRow)
    (hf : ∀ t, (f t).tenant_id = t.tenant_id ∧ (f t).task_id = t.task_id) :
    dbGetTask (dbUpdateTask db tenant task f) tenant task =
      (dbGetTask db tenant task).map f := by
  unfold dbGetTask dbUpdateTask
  exact find_map_ite _ f (fun t => by simp [(hf t).1, (hf t).2]) db.tasks

/-- Lease release touches only the lease table. -/
theorem dbGetTask_leaseRelease (db : DB) (t1 t2 tenant task : String) :
    dbGetTask (leaseRelease db t1 t2) tenant task = dbGetTask db tenant task :=
  rfl

/-- **C6.**  `requeue_on_expiry` on a task present in storage: the updated
row is exactly the old row with status queued, `next_eligible_at = now +
jitter`, `started_at` cleared and `updated_at` refreshed — every other
field (in particular `attempt`) is untouched, and no receipt or lease
changes.  The jitter bound `[0, 5]` is the sweep's `uniform(0, 5)` draw. -/
theorem c6_requeue_on_expiry_frame (db : DB) (now : Time)
    (tenant task : String) (j : Int) (t : TaskRow)
    (hj0 : 0 ≤ j) (hj5 : j ≤ 5)
    (ht : dbGetTask db tenant task = some t) :
    (requeue_on_expiry db now tenant task j).fst =
      some { t with
        status := .queued
        next_eligible_at := some (now + j)
        updated_at := now
        started_at := none } ∧
    (requeue_on_expiry db now tenant task j).snd.receipts = db.receipts ∧
    (requeue_on_expiry db now tenant task j).snd.leases = db.leases ∧
    ((requeue_on_expiry db now tenant task j).fst.map (fun t' => t'.attempt)) =
      some t.attempt := by
  have hupd := dbGetTask_update db tenant task
    (fun row => { row with
      status := .queued
      attempt := t.attempt
      next_eligible_at := some (now + j)
      updated_at := now
      started_at := none })
    (fun _ => ⟨rfl, rfl⟩)
  unfold requeue_on_expiry
  rw [ht]
  have hattempt : ∀ u : TaskRow, dbGetTask db tenant task = some u → u.attempt = t.attempt := by
    intro u hu
    rw [ht] at hu
    cases hu
    rfl
  refine ⟨?_, rfl, rfl, ?_⟩ <;>
    simp only [hupd, ht, Option.map_some, Option.map_map] <;>
    simp [hattempt t ht]

end AsyncGate

namespace AsyncGate

/-- Appending a fresh key makes it retrievable. -/
theorem jsonKvs_get_append_self :
    ∀ (kvs : JsonKvs) (k : String) (v : Json),
      kvs.get k = none → (kvs.append k v).get k = some v
  | .nil, k, v, _ => by simp [JsonKvs.append, JsonKvs.get]
  | .cons k0 v0 rest, k, v, h => by
    by_cases hk : (k0 == k) = true
    · simp [JsonKvs.get, hk] at h
    · simp only [JsonKvs.get, hk, if_false, Bool.false_eq_true] at h
      simp only [JsonKvs.append, JsonKvs.get, hk, if_false, Bool.false_eq_true]
      exact jsonKvs_get_append_self rest k v h

/-- With a non-empty trace id and a dict (or absent) caller body, the
prepared emission body always carries the `trace_id` key. -/
theorem emitBodyPayload_hasKey (trace : String) (body : Option Json)
    (htrace : trace ≠ "")
    (hobj : match body with
      | some (Json.obj _) => True
      | none => True
      | _ => False) :
    (emitBodyPayload trace body).hasKey "trace_id" = true := by
  have htr : (trace != "") = true := by simp [htrace]
  match body with
  | none =>
    simp only [emitBodyPayload, htr, Bool.true_and]
    simp [Json.hasKey, Json.get, Json.jobj, JsonKvs.ofList, Json.insertNew,
      JsonKvs.append, JsonKvs.get]
  | some (Json.obj kvs) =>
    simp only [emitBodyPayload, htr, Bool.true_and]
    by_cases htru : (Json.obj kvs).truthy = true
    · simp only [htru, if_true]
      by_cases hhk : (Json.obj kvs).hasKey "trace_id" = true
      · simp [hhk]
      · simp only [Bool.not_eq_true] at hhk
        simp only [hhk, Bool.not_false, if_true]
        simp only [Json.hasKey, Json.get, Json.insertNew]
        have hnone : kvs.get "trace_id" = none := by
          cases hg : kvs.get "trace_id" with
          | none => rfl
          | some v => simp [Json.hasKey, Json.get, hg] at hhk
        simp [Json.hasKey, Json.get, jsonKvs_get_append_self kvs _ _ hnone]
    · have : kvs = JsonKvs.nil := by
        cases kvs with
        | nil => rfl
        | cons k v rest => simp [Json.truthy] at htru
      subst this
      simp only [htru, if_false]
      simp [Json.hasKey, Json.get, Json.jobj, JsonKvs.ofList, Json.insertNew,
        JsonKvs.append, JsonKvs.get]

/-- **C10.**  Every receipt emitted through `_emit_receipt` (with the
non-empty trace id that `get_trace_id() or ensure_trace_id()` supplies)
has a body containing the `"trace_id"` key; when the caller's body lacks
that key, the stored body is the caller's body with `trace_id` appended —
in particular a different value than the caller supplied. -/
theorem c10_trace_id_injected (S : Settings) (db : DB) (rid : String)
    (now : Time) (trace : String) (tenant : String) (rt : ReceiptType)
    (fp tp : Principal) (tid lid sid : Option String) (body : Option Json)
    (parents : Option (List String)) (r : ReceiptRow) (db' : DB)
    (htrace : trace ≠ "")
    (hobj : match body with
      | some (Json.obj _) => True
      | none => True
      | _ => False)
    (h : emitReceipt S db rid now trace tenant rt fp tp tid lid sid body
      parents = .ok (r, db')) :
    r.body.hasKey "trace_id" = true ∧
    (∀ b, body = some b → b.hasKey "trace_id" = false → r.body ≠ b) := by
  obtain ⟨-, -, -, -, -, -, -, -, -, -, -, hbody, -, -⟩ := emitReceipt_ok S db
    rid now trace tenant rt fp tp tid lid sid body parents r db' h
  have hkey := emitBodyPayload_hasKey trace body htrace hobj
  rw [← hbody] at hkey
  refine ⟨hkey, ?_⟩
  intro b _ hnk heq
  rw [heq, hnk] at hkey
  exact Bool.noConfusion hkey

/-- Lookups only read the task table. -/
theorem dbGetTask_eq_of_tasks (db db' : DB) (tenant task : String)
    (h : db'.tasks = db.tasks) :
    dbGetTask db' tenant task = dbGetTask db tenant task := by
  unfold dbGetTask
  rw [h]

/-- `update_status` through a lookup. -/
theorem dbGetTask_updateTaskStatus (db : DB) (now : Time)
    (tenant task : String) (st : TaskStatus) (res : Option TaskResult)
    (sta : Option Time) :
    dbGetTask (updateTaskStatus db now tenant task st res sta) tenant task =
      (dbGetTask db tenant task).map (fun t =>
        { t with
          status := st
          updated_at := now
          result := match res with
            | some r => some r
            | none => t.result
          started_at := match sta with
            | some s => some s
            | none => t.started_at }) :=
  dbGetTask_update db tenant task _ (fun _ => ⟨rfl, rfl⟩)

/-- `requeue_with_backoff` with `increment_attempt=True` on a present
task: the updated row and store, in closed form. -/
theorem requeue_with_backoff_spec (S : Settings) (db : DB) (now : Time)
    (tenant task : String) (t : TaskRow)
    (ht : dbGetTask db tenant task = some t) :
    requeue_with_backoff S db now tenant task true =
      (some { t with
          status := .queued
          attempt := t.attempt + 1
          next_eligible_at := some (now +
            ((min (t.retry_backoff_seconds * 2 ^ (t.attempt + 1 - 1))
              S.max_retry_backoff_seconds : Nat) : Int))
          updated_at := now },
        dbUpdateTask db tenant task (fun row =>
          { row with
            status := .queued
            attempt := t.attempt + 1
            next_eligible_at := some (now +
              ((min (t.retry_backoff_seconds * 2 ^ (t.attempt + 1 - 1))
                S.max_retry_backoff_seconds : Nat) : Int))
            updated_at := now })) := by
  unfold requeue_with_backoff
  rw [ht]
  have hupd := dbGetTask_update db tenant task
    (fun row => { row with
      status := .queued
      attempt := t.attempt + 1
      next_eligible_at := some (now +
        ((min (t.retry_backoff_seconds * 2 ^ (t.attempt + 1 - 1))
          S.max_retry_backoff_seconds : Nat) : Int))
      updated_at := now })
    (fun _ => ⟨rfl, rfl⟩)
  simp only [reduceIte, hupd, ht]
  rfl

end AsyncGate


namespace AsyncGate

/-- `requeue_with_backoff` returns the row as re-read from its own
updated store. -/
theorem requeue_with_backoff_fst (S : Settings) (db : DB) (now : Time)
    (tenant task : String) (inc : Bool) :
    (requeue_with_backoff S db now tenant task inc).fst =
      dbGetTask (requeue_with_backoff S db now tenant task inc).snd
        tenant task := by
  unfold requeue_with_backoff
  cases hg : dbGetTask db tenant task with
  | none => simp [hg]
  | some t => simp [hg]

/-- **C5.**  `fail` under a valid lease: the task is requeued iff
`retryable` and `attempt + 1 < max_attempts`; a requeue increments
`attempt`, sets status queued and `next_eligible_at = now +
min(base * 2 ^ (new_attempt - 1), cap)` (the returned retry time
agreeing); otherwise the task is terminally `failed` with `result.error`
set — in particular a retryable fail on the last allowed attempt is a
terminal failure with no requeue. -/
theorem c5_fail_requeue_decision (S : Settings) (db : DB)
    (rid1 rid2 : String) (now : Time) (trace tenant worker task lease : String)
    (error : Json) (retryable requeued : Bool) (next : Option Time)
    (db' : DB) (t : TaskRow)
    (ht : dbGetTask db tenant task = some t)
    (h : engineFail S db rid1 rid2 now trace tenant worker task lease error
      retryable = .ok (requeued, next, db')) :
    requeued = (retryable && decide (t.attempt + 1 < t.max_attempts)) ∧
    (requeued = true →
      next = some (now +
        ((min (t.retry_backoff_seconds * 2 ^ (t.attempt + 1 - 1))
          S.max_retry_backoff_seconds : Nat) : Int)) ∧
      dbGetTask db' tenant task = some { t with
        status := .queued
        attempt := t.attempt + 1
        next_eligible_at := some (now +
          ((min (t.retry_backoff_seconds * 2 ^ (t.attempt + 1 - 1))
            S.max_retry_backoff_seconds : Nat) : Int))
        updated_at := now }) ∧
    (requeued = false →
      next = none ∧
      dbGetTask db' tenant task = some { t with
        status := .failed
        result := some { outcome := .failed, error := some error, completed_at := now }
        updated_at := now }) := by
  simp only [engineFail] at h
  split at h
  · exact Except.noConfusion h
  · split at h
    · rename_i hnone
      rw [ht] at hnone
      exact Option.noConfusion hnone
    · rename_i t0 ht0
      rw [ht] at ht0
      injection ht0 with hte
      subst hte
      split at h
      · exact Except.noConfusion h
      · rename_i ob hob
        split at h
        · rename_i hc
          have hts : dbGetTask (leaseRelease db tenant task) tenant task
              = some t := by
            rw [dbGetTask_leaseRelease]; exact ht
          have hspec := requeue_with_backoff_spec S
            (leaseRelease db tenant task) now tenant task t hts
          split at h
          · rename_i snd1 heq
            rw [hspec] at heq
            exact Option.noConfusion (congrArg Prod.fst heq)
          · rename_i task1 db2 heq
            have hdb2 : dbGetTask db2 tenant task = some task1 := by
              have hf := requeue_with_backoff_fst S
                (leaseRelease db tenant task) now tenant task true
              rw [heq] at hf
              exact hf.symm
            have htask1 : task1 = { t with
                status := .queued
                attempt := t.attempt + 1
                next_eligible_at := some (now +
                  ((min (t.retry_backoff_seconds * 2 ^ (t.attempt + 1 - 1))
                    S.max_retry_backoff_seconds : Nat) : Int))
                updated_at := now } := by
              rw [hspec] at heq
              have hfst := congrArg Prod.fst heq
              injection hfst with h1
              exact h1.symm
            split at h
            · exact Except.noConfusion h
            · rename_i r1 db3 hem
              injection h with hp
              injection hp with h1 hp2
              injection hp2 with h2 h3
              subst h1; subst h2; subst h3
              refine ⟨hc.symm, fun _ => ⟨?_, ?_⟩, fun hx => Bool.noConfusion hx⟩
              · rw [htask1]
              · have h3ts := (emitReceipt_ok _ _ _ _ _ _ _ _ _ _ _ _ _ _ _ _ hem).1
                rw [dbGetTask_eq_of_tasks db2 db3 tenant task h3ts, hdb2, htask1]
        · rename_i hc
          split at h
          · exact Except.noConfusion h
          · rename_i r1 db3 hem1
            have hdb3 : dbGetTask db3 tenant task = some { t with
                status := .failed
                result := some { outcome := .failed, error := some error, completed_at := now }
                updated_at := now } := by
              have h3ts := (emitReceipt_ok _ _ _ _ _ _ _ _ _ _ _ _ _ _ _ _ hem1).1
              rw [dbGetTask_eq_of_tasks _ db3 tenant task h3ts,
                dbGetTask_updateTaskStatus, dbGetTask_leaseRelease, ht]
              rfl
            split at h
            · rename_i hnone3
              rw [hdb3] at hnone3
              exact Option.noConfusion hnone3
            · rename_i task3 hsome3
              rw [hdb3] at hsome3
              injection hsome3 with h5
              subst h5
              split at h
              · exact Except.noConfusion h
              · rename_i r2 db4 hem2
                injection h with hp
                injection hp with h1 hp2
                injection hp2 with h2 h3
                subst h1; subst h2; subst h3
                refine ⟨(Bool.eq_false_iff.mpr hc).symm,
                  fun hx => Bool.noConfusion hx, fun _ => ⟨rfl, ?_⟩⟩
                have h4ts := (emitReceipt_ok _ _ _ _ _ _ _ _ _ _ _ _ _ _ _ _ hem2).1
                rw [dbGetTask_eq_of_tasks db3 db4 tenant task h4ts, hdb3]

end AsyncGate

namespace AsyncGate

/-- Fixture: a leased task on its first attempt (`max_attempts = 2`,
`retry_backoff_seconds = 15`). -/
def exFailTask : TaskRow :=
  { tenant_id := "t"
    task_id := "task1"
    type := "test_task"
    payload := Json.jobj []
    created_by := exAgent
    priority := 0
    status := .leased
    attempt := 0
    max_attempts := 2
    retry_backoff_seconds := 15
    idempotency_key := none
    created_at := 100
    updated_at := 100
    next_eligible_at := none
    asyncgate_instance := none }

/-- Fixture: a lease on `exFailTask` valid at `now = 120`. -/
def exFailLease : LeaseRow :=
  { lease_id := "l1"
    tenant_id := "t"
    task_id := "task1"
    worker_id := "w1"
    expires_at := 220
    created_at := 100
    acquired_at := 100
    renewal_count := 0 }

/-- Fixture: store holding the leased task, its lease and its
`task.assigned` obligation. -/
def exDBf : DB :=
  { tasks := [exFailTask], leases := [exFailLease], receipts := [exObligation] }

/-- Fixture: a concrete retryable `fail` call on `exDBf`. -/
def exFailRun : Except EngineError (Bool × Option Time × DB) :=
  engineFail {} exDBf "f1" "f2" 120 "tr" "t" "w1" "task1" "l1"
    (Json.jobj [("message", .str "boom")]) true

/-- Fixture: the successful triple of `exFailRun`. -/
def exFailTriple : Bool × Option Time × DB :=
  match exFailRun with
  | .ok v => v
  | .error _ => (false, none, exDBf)

/-- Witness for C5: the concrete retryable `fail` on attempt `0` of `2`
requeues, with `next_eligible_at = 120 + min(15 * 2 ^ 0, 900) = 135`. -/
theorem c5_fail_requeue_decision_witness :
    exFailRun = .ok exFailTriple ∧
    exFailTriple.1 = (true && decide (0 + 1 < 2)) ∧
    dbGetTask exFailTriple.2.2 "t" "task1" = some { exFailTask with
      status := .queued
      attempt := 1
      next_eligible_at := some 135
      updated_at := 120 } := by
  have hrun : exFailRun = .ok exFailTriple := rfl
  have hmain := c5_fail_requeue_decision {} exDBf "f1" "f2" 120 "tr" "t" "w1"
    "task1" "l1" (Json.jobj [("message", .str "boom")]) true
    exFailTriple.1 exFailTriple.2.1 exFailTriple.2.2 exFailTask rfl hrun
  exact ⟨hrun, hmain.1, (hmain.2.1 rfl).2⟩

end AsyncGate


namespace AsyncGate

/-- Fixture: `exDBf` with the lease already expired (`expires_at = 110`). -/
def exRenewDB : DB :=
  { tasks := [exFailTask]
    leases := [{ exFailLease with expires_at := 110 }]
    receipts := [exObligation] }

/-- Counterexample for C7: at `now = 300` the fixture lease is expired —
`validate` rejects it — yet `renew_lease` succeeds, advancing
`expires_at` to `300 + min(default_ttl, max_ttl) = 420`: the renew path
performs no `expires_at` check. -/
theorem c7_renew_succeeds_on_expired_lease :
    leaseValidate exRenewDB 300 "t" "task1" "l1" "w1" = none ∧
    renewLease {} exRenewDB 300 "t" "w1" "task1" "l1" none =
      .ok (420, { exRenewDB with leases :=
        [{ exFailLease with expires_at := 420, renewal_count := 1 }] }) :=
  ⟨rfl, rfl⟩

/-- **C7 (amended).**  `renew_lease` on an existing task: it fails with
`LeaseInvalidOrExpired` when the task's status is not leased or running,
and likewise when no lease row matches tenant, task, lease id **and**
worker (missing, or owned by another worker); with a matching row the
renewal-count limit raises `LeaseRenewalLimitExceeded`, then the
absolute-lifetime limit raises `LeaseLifetimeExceeded`, and otherwise —
with **no** condition on `expires_at`, expired leases included — the
renew succeeds, advancing `expires_at` to `now + min(extend_by or
default_ttl, max_ttl)` and incrementing `renewal_count`; so no renew
ever succeeds past either limit, but renewing an already-expired lease
is accepted. -/
theorem c7_renew_lease_amended (S : Settings) (db : DB) (now : Time)
    (tenant worker task lease : String) (ext : Option Nat) (t : TaskRow)
    (ht : dbGetTask db tenant task = some t) :
    ((t.status == TaskStatus.leased || t.status == TaskStatus.running)
        = false →
      renewLease S db now tenant worker task lease ext =
        .error (.leaseInvalidOrExpired task lease)) ∧
    ((t.status == TaskStatus.leased || t.status == TaskStatus.running)
        = true →
      db.leases.find? (fun l0 =>
        l0.tenant_id == tenant && l0.task_id == task &&
        l0.lease_id == lease && l0.worker_id == worker) = none →
      renewLease S db now tenant worker task lease ext =
        .error (.leaseInvalidOrExpired task lease)) ∧
    (∀ l : LeaseRow,
      (t.status == TaskStatus.leased || t.status == TaskStatus.running)
        = true →
      db.leases.find? (fun l0 =>
        l0.tenant_id == tenant && l0.task_id == task &&
        l0.lease_id == lease && l0.worker_id == worker) = some l →
      (S.max_lease_renewals ≤ l.renewal_count →
        renewLease S db now tenant worker task lease ext =
          .error (.leaseRenewalLimitExceeded l.renewal_count
            S.max_lease_renewals)) ∧
      (l.renewal_count < S.max_lease_renewals →
        (S.max_lease_lifetime_seconds : Int) ≤ now - l.acquired_at →
        renewLease S db now tenant worker task lease ext =
          .error (.leaseLifetimeExceeded (now - l.acquired_at)
            S.max_lease_lifetime_seconds)) ∧
      (l.renewal_count < S.max_lease_renewals →
        now - l.acquired_at < (S.max_lease_lifetime_seconds : Int) →
        renewLease S db now tenant worker task lease ext =
          .ok (now + ((min (orTruthy ext S.default_lease_ttl_seconds)
              S.max_lease_ttl_seconds : Nat) : Int),
            { db with leases := db.leases.map (fun l0 =>
              if l0.lease_id == l.lease_id then
                { l0 with
                  expires_at := now +
                    ((min (orTruthy ext S.default_lease_ttl_seconds)
                      S.max_lease_ttl_seconds : Nat) : Int)
                  renewal_count := l0.renewal_count + 1 }
              else l0) }))) := by
  refine ⟨fun hst => ?_, fun hst hnone => ?_,
    fun l hst hl => ⟨fun hge => ?_, fun hlt hle => ?_, fun hlt hlt2 => ?_⟩⟩
  · simp only [renewLease, ht, hst, Bool.not_false, eq_self_iff_true,
      ite_true]
  · simp only [renewLease, leaseRenew, ht, hst, hnone, Bool.not_true,
      Bool.false_eq_true, ite_false]
  · simp only [renewLease, leaseRenew, ht, hl, hst, Bool.not_true,
      Bool.false_eq_true, if_false]
    rw [if_pos hge]
  · simp only [renewLease, leaseRenew, ht, hl, hst, Bool.not_true,
      Bool.false_eq_true, if_false]
    rw [if_neg (not_le.mpr hlt), if_pos hle]
  · simp only [renewLease, leaseRenew, ht, hl, hst, Bool.not_true,
      Bool.false_eq_true, if_false]
    rw [if_neg (not_le.mpr hlt), if_neg (not_le.mpr hlt2)]

/-- Witness for C7: renewing the valid fixture lease at `now = 120`
(renewals `0 < 10`, lifetime `20 < 7200`) succeeds with
`expires_at = 120 + min(120, 1800) = 240`. -/
theorem c7_renew_lease_amended_witness :
    dbGetTask exDBf "t" "task1" = some exFailTask ∧
    (exFailLease.renewal_count < (10 : Nat)) ∧
    renewLease {} exDBf 120 "t" "w1" "task1" "l1" none =
      .ok (240, { exDBf with leases :=
        [{ exFailLease with expires_at := 240, renewal_count := 1 }] }) ∧
    renewLease {} exDBf 120 "t" "w2" "task1" "l1" none =
      .error (.leaseInvalidOrExpired "task1" "l1") := by
  have hmain := c7_renew_lease_amended {} exDBf 120 "t" "w1" "task1" "l1"
    none exFailTask rfl
  have hmiss := c7_renew_lease_amended {} exDBf 120 "t" "w2" "task1" "l1"
    none exFailTask rfl
  exact ⟨rfl, by decide,
    (hmain.2.2 exFailLease rfl rfl).2.2 (by decide) (by decide),
    hmiss.2.1 rfl rfl⟩

end AsyncGate



namespace AsyncGate

/-- A task-row lookup hit pins the key columns. -/
theorem dbGetTask_keys (db : DB) (tenant task : String) (t : TaskRow)
    (ht : dbGetTask db tenant task = some t) :
    t.tenant_id = tenant ∧ t.task_id = task := by
  unfold dbGetTask at ht
  have hp := List.find?_some ht
  simp only [Bool.and_eq_true, beq_iff_eq] at hp
  exact hp

/-- **C4.**  The running state: only leased tasks may transition to
running, and complete's transition target `succeeded` is reachable
exactly from leased or running; `start_task` on a leased task under a
valid lease stores status running with `started_at` kept from any earlier
start (`started_at or now`) and appends one `task.started` receipt; a
repeat `start_task` on the running task returns the stored `started_at`
unchanged with no store change; the first `report_progress` on a leased
task performs the same transition (appending `task.started` then
`task.progress`); and `complete` from any status other than leased or
running fails with `InvalidStateTransition`. -/
theorem c4_running_state (S : Settings) (db : DB) (rid : String) (now : Time)
    (trace tenant worker task lease : String) (t : TaskRow) (lrow : LeaseRow)
    (hlv : leaseValidate db now tenant task lease worker = some lrow)
    (ht : dbGetTask db tenant task = some t) :
    (∀ st : TaskStatus, can_transition_to st .running =
      (st == TaskStatus.leased)) ∧
    (∀ st : TaskStatus, can_transition_to st .succeeded =
      (st == TaskStatus.leased || st == TaskStatus.running)) ∧
    (t.status = .leased →
      ∀ res db', startTask S db rid now trace tenant worker task lease
          = .ok (res, db') →
        res = some (t.started_at.getD now) ∧
        dbGetTask db' tenant task = some { t with
          status := .running
          updated_at := now
          started_at := some (t.started_at.getD now) } ∧
        ∃ r, db'.receipts = db.receipts ++ [r] ∧
          r.receipt_id = rid ∧ r.receipt_type = .task_started) ∧
    (t.status = .running →
      startTask S db rid now trace tenant worker task lease
        = .ok (t.started_at, db)) ∧
    (t.status = .leased →
      ∀ rid2 progress db', reportProgress S db rid rid2 now trace tenant
          worker task lease progress = .ok db' →
        dbGetTask db' tenant task = some { t with
          status := .running
          updated_at := now
          started_at := some (t.started_at.getD now) } ∧
        ∃ r1 r2, db'.receipts = db.receipts ++ [r1, r2] ∧
          r1.receipt_type = .task_started ∧
          r2.receipt_type = .task_progress) ∧
    (∀ rid2 (result : Json) (artifacts : Option Json),
      t.status ≠ .leased → t.status ≠ .running →
      engineComplete S db rid rid2 now trace tenant worker task lease result
        artifacts = .error (.invalidStateTransition t.status .succeeded)) := by
  obtain ⟨-, htid⟩ := dbGetTask_keys db tenant task t ht
  have e1 : (TaskStatus.leased == TaskStatus.running) = false := rfl
  have e2 : (TaskStatus.leased != TaskStatus.leased) = false := rfl
  have e3 : (TaskStatus.leased == TaskStatus.leased) = true := rfl
  have e4 : (TaskStatus.running == TaskStatus.running) = true := rfl
  refine ⟨fun st => by cases st <;> rfl, fun st => by cases st <;> rfl,
    ?_, ?_, ?_, ?_⟩
  · intro hst res db' h
    simp only [startTask, hlv, ht, hst, transitionToRunning, e1, e2,
      Bool.false_eq_true, ite_false] at h
    split at h
    · exact Except.noConfusion h
    · rename_i s0 db2 hem
      simp only [Except.ok.injEq, Prod.mk.injEq] at h
      obtain ⟨h1, h2⟩ := h
      subst h1; subst h2
      split at hem
      · exact Except.noConfusion hem
      · rename_i r db3 hemr
        simp only [Except.ok.injEq, Prod.mk.injEq] at hem
        obtain ⟨hs0, hdb⟩ := hem
        subst hs0; subst hdb
        obtain ⟨hts, -, hrc, hrid, -, hrt, -⟩ :=
          emitReceipt_ok _ _ _ _ _ _ _ _ _ _ _ _ _ _ _ _ hemr
        refine ⟨rfl, ?_, r, ?_, hrid, hrt⟩
        · rw [dbGetTask_eq_of_tasks _ _ tenant task hts]
          conv_lhs => rw [htid]
          rw [dbGetTask_updateTaskStatus, ht]
          rfl
        · rw [hrc]
          rfl
  · intro hrun
    simp only [startTask, hlv, ht, hrun, e4, ite_true]
  · intro hst rid2 progress db' h
    simp only [reportProgress, hlv, ht, hst, transitionToRunning, e1, e2, e3,
      Bool.false_eq_true, ite_false, ite_true] at h
    split at h
    · exact Except.noConfusion h
    · rename_i db1 har
      split at h
      · exact Except.noConfusion h
      · rename_i r2 db3 hem2
        simp only [Except.ok.injEq] at h
        subst h
        split at har
        · exact Except.noConfusion har
        · rename_i s0 db2 htr
          simp only [Except.ok.injEq] at har
          subst har
          split at htr
          · exact Except.noConfusion htr
          · rename_i r1 db2x hem1
            simp only [Except.ok.injEq, Prod.mk.injEq] at htr
            obtain ⟨hs0, hdb⟩ := htr
            subst hs0; subst hdb
            obtain ⟨hts1, -, hrc1, -, -, hrt1, -⟩ :=
              emitReceipt_ok _ _ _ _ _ _ _ _ _ _ _ _ _ _ _ _ hem1
            obtain ⟨hts2, -, hrc2, -, -, hrt2, -⟩ :=
              emitReceipt_ok _ _ _ _ _ _ _ _ _ _ _ _ _ _ _ _ hem2
            refine ⟨?_, r1, r2, ?_, hrt1, hrt2⟩
            · rw [dbGetTask_eq_of_tasks _ _ tenant task hts2,
                dbGetTask_eq_of_tasks _ _ tenant task hts1]
              conv_lhs => rw [htid]
              rw [dbGetTask_updateTaskStatus, ht]
              rfl
            · rw [hrc2, hrc1]
              simp [updateTaskStatus, dbUpdateTask]
  · intro rid2 result artifacts h1 h2
    have hcant : can_transition_to t.status .succeeded = false := by
      cases hs : t.status
      · rfl
      · exact absurd hs h1
      · exact absurd hs h2
      · rfl
      · rfl
      · rfl
    simp only [engineComplete, hlv, ht, hcant, Bool.not_false,
      eq_self_iff_true, ite_true]

/-- Witness for C4: the fixture lease and leased task satisfy the
hypotheses, and the transition table distinguishes running. -/
theorem c4_running_state_witness :
    leaseValidate exDBf 120 "t" "task1" "l1" "w1" = some exFailLease ∧
    dbGetTask exDBf "t" "task1" = some exFailTask ∧
    (∀ st : TaskStatus, can_transition_to st .running =
      (st == TaskStatus.leased)) := by
  have hmain := c4_running_state {} exDBf "s0" 120 "tr" "t" "w1" "task1" "l1"
    exFailTask exFailLease rfl rfl
  exact ⟨rfl, rfl, hmain.1⟩

end AsyncGate


namespace AsyncGate

/-- `find?` skips a prefix in which nothing matches. -/
theorem find_append_of_none {α : Type} (p : α → Bool) :
    ∀ l1 l2 : List α, l1.find? p = none → (l1 ++ l2).find? p = l2.find? p
  | [], _, _ => rfl
  | a :: l1, l2, h => by
    cases hpa : p a with
    | true => simp [List.find?, hpa] at h
    | false =>
      simp only [List.cons_append, List.find?, hpa] at h ⊢
      exact find_append_of_none p l1 l2 h

/-- `create_task` on an idempotency-key collision: the existing row is
returned unchanged (no new task row) and a fresh `task.assigned` receipt
is nevertheless appended. -/
theorem createTask_collision (S : Settings) (db : DB) (tid rid : String)
    (now : Time) (tr tenant ty : String) (p : Json) (pp : Option String)
    (cb : Principal) (ai : String) (rq : Option TaskRequirements)
    (eo ea : Option String) (pr : Option Int) (key : String)
    (ma rb ds : Option Nat) (internal : Bool) (ex : TaskRow)
    (id : String) (st : TaskStatus) (db' : DB)
    (hex : db.tasks.find? (fun t =>
      t.tenant_id == tenant && t.idempotency_key == some key) = some ex)
    (h : createTask S db tid rid now tr tenant ty p pp cb ai rq eo ea pr
      (some key) ma rb ds internal = .ok (id, st, db')) :
    id = ex.task_id ∧ st = ex.status ∧ db'.tasks = db.tasks ∧
    ∃ r, db'.receipts = db.receipts ++ [r] ∧
      r.receipt_type = .task_assigned ∧ r.task_id = some ex.task_id := by
  simp only [createTask, taskRepoCreate, hex] at h
  split at h
  · exact Except.noConfusion h
  · split at h
    · exact Except.noConfusion h
    · split at h
      · exact Except.noConfusion h
      · rename_i r db2 hem
        simp only [Except.ok.injEq, Prod.mk.injEq] at h
        obtain ⟨hid, hst, hdb⟩ := h
        subst hid; subst hst; subst hdb
        obtain ⟨hts, -, hrc, -, -, hrt, -, -, -, htid, -⟩ :=
          emitReceipt_ok _ _ _ _ _ _ _ _ _ _ _ _ _ _ _ _ hem
        exact ⟨rfl, rfl, hts, r, hrc, hrt, htid⟩

/-- `create_task` with a fresh idempotency key: a queued row keyed by the
key is appended and one `task.assigned` receipt is emitted for it. -/
theorem createTask_fresh (S : Settings) (db : DB) (tid rid : String)
    (now : Time) (tr tenant ty : String) (p : Json) (pp : Option String)
    (cb : Principal) (ai : String) (rq : Option TaskRequirements)
    (eo ea : Option String) (pr : Option Int) (key : String)
    (ma rb ds : Option Nat) (internal : Bool)
    (id : String) (st : TaskStatus) (db' : DB)
    (hex : db.tasks.find? (fun t =>
      t.tenant_id == tenant && t.idempotency_key == some key) = none)
    (h : createTask S db tid rid now tr tenant ty p pp cb ai rq eo ea pr
      (some key) ma rb ds internal = .ok (id, st, db')) :
    id = tid ∧
    (∃ irow, db'.tasks = db.tasks ++ [irow] ∧ irow.task_id = tid ∧
      irow.tenant_id = tenant ∧ irow.idempotency_key = some key ∧
      irow.status = .queued) ∧
    ∃ r, db'.receipts = db.receipts ++ [r] ∧
      r.receipt_type = .task_assigned ∧ r.task_id = some tid := by
  simp only [createTask, taskRepoCreate, hex] at h
  split at h
  · exact Except.noConfusion h
  · split at h
    · exact Except.noConfusion h
    · split at h
      · exact Except.noConfusion h
      · rename_i r db2 hem
        simp only [Except.ok.injEq, Prod.mk.injEq] at h
        obtain ⟨hid, hst, hdb⟩ := h
        subst hid; subst hst; subst hdb
        obtain ⟨hts, -, hrc, -, -, hrt, -, -, -, htid, -⟩ :=
          emitReceipt_ok _ _ _ _ _ _ _ _ _ _ _ _ _ _ _ _ hem
        refine ⟨rfl, ⟨_, hts, rfl, rfl, rfl, rfl⟩, r, ?_, hrt, htid⟩
        rw [hrc]

/-- **C9 (amended).**  Two `create_task` calls with the same tenant and
idempotency key: the second returns the first call's `task_id` and adds
no second task row — but each call emits its own `task.assigned`
receipt, so after the second call a **second** assigned receipt for the
same task has been appended (rather than exactly one existing in total).
-/
theorem c9_create_task_idempotent_row_amended (S : Settings) (db : DB)
    (tid1 rid1 tid2 rid2 : String) (now1 now2 : Time) (tr1 tr2 : String)
    (tenant : String) (ty1 ty2 : String) (p1 p2 : Json)
    (pp1 pp2 : Option String) (cb1 cb2 : Principal) (ai1 ai2 : String)
    (rq1 rq2 : Option TaskRequirements) (eo1 eo2 ea1 ea2 : Option String)
    (pr1 pr2 : Option Int) (key : String)
    (ma1 ma2 rb1 rb2 ds1 ds2 : Option Nat) (int1 int2 : Bool)
    (id1 id2 : String) (st1 st2 : TaskStatus) (db1 db2 : DB)
    (h1 : createTask S db tid1 rid1 now1 tr1 tenant ty1 p1 pp1 cb1 ai1 rq1
      eo1 ea1 pr1 (some key) ma1 rb1 ds1 int1 = .ok (id1, st1, db1))
    (h2 : createTask S db1 tid2 rid2 now2 tr2 tenant ty2 p2 pp2 cb2 ai2 rq2
      eo2 ea2 pr2 (some key) ma2 rb2 ds2 int2 = .ok (id2, st2, db2)) :
    id2 = id1 ∧ db2.tasks = db1.tasks ∧
    ∃ r, db2.receipts = db1.receipts ++ [r] ∧
      r.receipt_type = .task_assigned ∧ r.task_id = some id1 := by
  cases hex : db.tasks.find? (fun t =>
      t.tenant_id == tenant && t.idempotency_key == some key) with
  | some ex =>
    obtain ⟨hi1, -, hts1, -⟩ := createTask_collision S db tid1 rid1 now1 tr1
      tenant ty1 p1 pp1 cb1 ai1 rq1 eo1 ea1 pr1 key ma1 rb1 ds1 int1 ex
      id1 st1 db1 hex h1
    have hex1 : db1.tasks.find? (fun t =>
        t.tenant_id == tenant && t.idempotency_key == some key) = some ex := by
      rw [hts1, hex]
    obtain ⟨hi2, -, hts2, r, hrc, hrt, htid⟩ := createTask_collision S db1
      tid2 rid2 now2 tr2 tenant ty2 p2 pp2 cb2 ai2 rq2 eo2 ea2 pr2 key
      ma2 rb2 ds2 int2 ex id2 st2 db2 hex1 h2
    subst hi1
    exact ⟨hi2, hts2, r, hrc, hrt, htid⟩
  | none =>
    obtain ⟨hi1, ⟨irow, hta, hik, hitn, hkey, -⟩, -⟩ := createTask_fresh S db
      tid1 rid1 now1 tr1 tenant ty1 p1 pp1 cb1 ai1 rq1 eo1 ea1 pr1 key
      ma1 rb1 ds1 int1 id1 st1 db1 hex h1
    have hex1 : db1.tasks.find? (fun t =>
        t.tenant_id == tenant && t.idempotency_key == some key)
        = some irow := by
      rw [hta, find_append_of_none _ _ _ hex]
      simp [List.find?, hitn, hkey]
    obtain ⟨hi2, -, hts2, r, hrc, hrt, htid⟩ := createTask_collision S db1
      tid2 rid2 now2 tr2 tenant ty2 p2 pp2 cb2 ai2 rq2 eo2 ea2 pr2 key
      ma2 rb2 ds2 int2 irow id2 st2 db2 hex1 h2
    subst hi1
    rw [hik] at hi2 htid
    exact ⟨hi2, hts2, r, hrc, hrt, htid⟩

end AsyncGate

namespace AsyncGate

/-- Fixture: a first `create_task` with idempotency key `"k"`. -/
def exCreate1 : Except EngineError (String × TaskStatus × DB) :=
  createTask {} {} "tA" "rA" 100 "tr" "t" "ty" (Json.jobj []) none exAgent
    "ai1" none none none none (some "k") none none none false

/-- Fixture: the store `exCreate1` leaves. -/
def exCreateDB1 : DB :=
  match exCreate1 with
  | .ok (_, _, d) => d
  | .error _ => {}

/-- Fixture: a second `create_task` on that store with the same tenant
and key (fresh uuids `tB`/`rB`, as on every call). -/
def exCreate2 : Except EngineError (String × TaskStatus × DB) :=
  createTask {} exCreateDB1 "tB" "rB" 101 "tr" "t" "ty" (Json.jobj []) none
    exAgent "ai1" none none none none (some "k") none none none false

/-- Fixture: the store `exCreate2` leaves. -/
def exCreateDB2 : DB :=
  match exCreate2 with
  | .ok (_, _, d) => d
  | .error _ => {}

/-- Counterexample for C9: the second call returns the first task id and
adds no task row, but the store now holds **two** `task.assigned`
receipts for task `tA` — not exactly one. -/
theorem c9_second_create_emits_second_assigned :
    exCreate1 = .ok ("tA", .queued, exCreateDB1) ∧
    exCreate2 = .ok ("tA", .queued, exCreateDB2) ∧
    exCreateDB2.tasks.length = 1 ∧
    (exCreateDB2.receipts.filter (fun r =>
      r.receipt_type == ReceiptType.task_assigned &&
      r.task_id == some "tA")).length = 2 :=
  ⟨rfl, rfl, rfl, rfl⟩

/-- Witness for C9: the amended statement evaluated on the concrete
double create. -/
theorem c9_create_task_idempotent_row_amended_witness :
    exCreate1 = .ok ("tA", .queued, exCreateDB1) ∧
    exCreate2 = .ok ("tA", .queued, exCreateDB2) ∧
    ("tA" : String) = "tA" ∧ exCreateDB2.tasks = exCreateDB1.tasks := by
  have h1 : createTask {} {} "tA" "rA" 100 "tr" "t" "ty" (Json.jobj []) none
      exAgent "ai1" none none none none (some "k") none none none false
      = .ok ("tA", .queued, exCreateDB1) := rfl
  have h2 : createTask {} exCreateDB1 "tB" "rB" 101 "tr" "t" "ty"
      (Json.jobj []) none exAgent "ai1" none none none none (some "k") none
      none none false = .ok ("tA", .queued, exCreateDB2) := rfl
  have hmain := c9_create_task_idempotent_row_amended {} {} "tA" "rA" "tB"
    "rB" 100 101 "tr" "tr" "t" "ty" "ty" (Json.jobj []) (Json.jobj []) none
    none exAgent exAgent "ai1" "ai1" none none none none none none none none
    "k" none none none none none none false false "tA" "tA" .queued .queued
    exCreateDB1 exCreateDB2 h1 h2
  exact ⟨h1, h2, hmain.1, hmain.2.1⟩

end AsyncGate


namespace AsyncGate

/-- Witness for C6: expiring the fixture lease at `now = 130` with jitter
`2` requeues the task with `next_eligible_at = 132`, `started_at`
cleared and `attempt` untouched. -/
theorem c6_requeue_on_expiry_frame_witness :
    (0 : Int) ≤ 2 ∧ (2 : Int) ≤ 5 ∧
    dbGetTask exDBf "t" "task1" = some exFailTask ∧
    (requeue_on_expiry exDBf 130 "t" "task1" 2).fst =
      some { exFailTask with
        status := .queued
        next_eligible_at := some 132
        updated_at := 130
        started_at := none } := by
  have hmain := c6_requeue_on_expiry_frame exDBf 130 "t" "task1" 2 exFailTask
    (by decide) (by decide) rfl
  exact ⟨by decide, by decide, rfl, hmain.1⟩

/-- Fixture: the receipt row stored by the concrete emission
`exEmitOnce`. -/
def exEmitRow : ReceiptRow :=
  match exEmitOnce with
  | .ok (r, _) => r
  | .error _ => exObligation

/-- Fixture: the store left by `exEmitOnce`. -/
def exEmitDB : DB :=
  match exEmitOnce with
  | .ok (_, d) => d
  | .error _ => exDB1

/-- Witness for C10: the concrete progress emission (whose caller body
has no `trace_id`) stores a body carrying the `trace_id` key. -/
theorem c10_trace_id_injected_witness :
    ("trace-1" : String) ≠ "" ∧
    exEmitRow.body.hasKey "trace_id" = true := by
  have hmain := c10_trace_id_injected {} exDB1 "e1" 120 "trace-1" "t"
    .task_progress ⟨.worker, "w1"⟩ exAgent (some "task1") (some "l1") none
    (some (Json.jobj [("progress", Json.jobj [("pct", .num 10)])]))
    (some ["r1"]) exEmitRow exEmitDB (by decide) trivial rfl
  exact ⟨by decide, hmain.1⟩

end AsyncGate


namespace AsyncGate

/-- Characters agree when their code points do. -/
theorem charEqOfToNat (a b : Char) (h : a.toNat = b.toNat) : a = b :=
  Char.ext (UInt32.ext h)

/-- Strings agree when their character lists do. -/
theorem strEqOfData (a b : String) (h : a.data = b.data) : a = b := by
  cases a
  cases b
  simp_all

/-- `pyCmp` returns `eq` only on equal lists. -/
theorem pyCmp_eq_eq : ∀ a b : List Char, pyCmp a b = .eq → a = b
  | [], [], _ => rfl
  | [], _ :: _, h => by simp [pyCmp] at h
  | _ :: _, [], h => by simp [pyCmp] at h
  | a :: as, b :: bs, h => by
    simp only [pyCmp] at h
    split at h
    · exact Ordering.noConfusion h
    · split at h
      · exact Ordering.noConfusion h
      · rename_i h1 h2
        have hab : a = b := charEqOfToNat a b (by omega)
        rw [hab, pyCmp_eq_eq as bs h]

/-- `pyCmp` swaps `lt` and `gt` under argument exchange. -/
theorem pyCmp_lt_gt : ∀ a b : List Char, pyCmp a b = .lt ↔ pyCmp b a = .gt
  | [], [] => by simp [pyCmp]
  | [], _ :: _ => by simp [pyCmp]
  | _ :: _, [] => by simp [pyCmp]
  | a :: as, b :: bs => by
    simp only [pyCmp]
    by_cases h1 : a.toNat < b.toNat
    · have h2 : ¬ b.toNat < a.toNat := by omega
      simp [h1, h2]
    · by_cases h2 : b.toNat < a.toNat
      · simp [h1, h2]
      · simp [h1, h2, pyCmp_lt_gt as bs]

/-- `pyCmp`'s strict order is transitive. -/
theorem pyCmp_trans_lt : ∀ a b c : List Char,
    pyCmp a b = .lt → pyCmp b c = .lt → pyCmp a c = .lt
  | [], [], _, h1, _ => by simp [pyCmp] at h1
  | [], _ :: _, [], _, h2 => by simp [pyCmp] at h2
  | [], _ :: _, _ :: _, _, _ => by simp [pyCmp]
  | _ :: _, [], _, h1, _ => by simp [pyCmp] at h1
  | _ :: _, _ :: _, [], _, h2 => by simp [pyCmp] at h2
  | a :: as, b :: bs, c :: cs, h1, h2 => by
    simp only [pyCmp] at h1 h2 ⊢
    by_cases hab : a.toNat < b.toNat
    · by_cases hbc : b.toNat < c.toNat
      · simp [Nat.lt_trans hab hbc]
      · by_cases hcb : c.toNat < b.toNat
        · simp [hbc, hcb] at h2
        · have hac : a.toNat < c.toNat := by omega
          simp [hac]
    · by_cases hba : b.toNat < a.toNat
      · simp [hab, hba] at h1
      · by_cases hbc : b.toNat < c.toNat
        · have hac : a.toNat < c.toNat := by omega
          simp [hac]
        · by_cases hcb : c.toNat < b.toNat
          · simp [hbc, hcb] at h2
          · have hac1 : ¬ a.toNat < c.toNat := by omega
            have hac2 : ¬ c.toNat < a.toNat := by omega
            simp only [hab, hba, if_false, ite_false, if_neg] at h1
            simp only [hbc, hcb, if_false, ite_false, if_neg] at h2
            simp [hac1, hac2, pyCmp_trans_lt as bs cs h1 h2]

/-- Python string `<=` is total. -/
theorem pyStrLe_total (a b : String) :
    pyStrLe a b = true ∨ pyStrLe b a = true := by
  unfold pyStrLe
  cases h : pyCmp a.data b.data with
  | lt => left; rfl
  | eq => left; rfl
  | gt =>
    right
    have hlt : pyCmp b.data a.data = .lt := (pyCmp_lt_gt b.data a.data).mpr h
    rw [hlt]

/-- Python string `<=` is transitive. -/
theorem pyStrLe_trans (a b c : String) (h1 : pyStrLe a b = true)
    (h2 : pyStrLe b c = true) : pyStrLe a c = true := by
  unfold pyStrLe at h1 h2 ⊢
  cases hab : pyCmp a.data b.data with
  | gt => rw [hab] at h1; exact Bool.noConfusion h1
  | eq =>
    have : a.data = b.data := pyCmp_eq_eq _ _ hab
    rw [this]
    exact h2
  | lt =>
    cases hbc : pyCmp b.data c.data with
    | gt => rw [hbc] at h2; exact Bool.noConfusion h2
    | eq =>
      have : b.data = c.data := pyCmp_eq_eq _ _ hbc
      rw [← this, hab]
    | lt =>
      rw [pyCmp_trans_lt a.data b.data c.data hab hbc]

/-- Python string `<=` is antisymmetric. -/
theorem pyStrLe_antisymm (a b : String) (h1 : pyStrLe a b = true)
    (h2 : pyStrLe b a = true) : a = b := by
  unfold pyStrLe at h1 h2
  cases hab : pyCmp a.data b.data with
  | eq => exact strEqOfData a b (pyCmp_eq_eq _ _ hab)
  | lt =>
    have : pyCmp b.data a.data = .gt := (pyCmp_lt_gt a.data b.data).mp hab
    rw [this] at h2
    exact Bool.noConfusion h2
  | gt => rw [hab] at h1; exact Bool.noConfusion h1

/-- `sorted(...)` is permutation-invariant: permuted inputs sort to the
same list. -/
theorem pySorted_perm_eq (l1 l2 : List String) (h : l1.Perm l2) :
    pySorted l1 = pySorted l2 := by
  haveI : IsTotal String (fun a b => pyStrLe a b = true) := ⟨pyStrLe_total⟩
  haveI : IsTrans String (fun a b => pyStrLe a b = true) := ⟨pyStrLe_trans⟩
  haveI : IsAntisymm String (fun a b => pyStrLe a b = true) :=
    ⟨pyStrLe_antisymm⟩
  simp only [pySorted]
  exact List.eq_of_perm_of_sorted
    (((List.perm_insertionSort _ l1).trans h).trans
      (List.perm_insertionSort _ l2).symm)
    (List.sorted_insertionSort _ l1)
    (List.sorted_insertionSort _ l2)

/-- **C8.**  The receipt hash is order-insensitive but parents-sensitive,
and drives storage: permuted parents lists hash identically (the hash
covers `sorted(parents)`); a `create` whose non-empty hash matches a
stored receipt returns that single stored row with no insertion, while a
hash found nowhere appends a new row carrying it; and on the concrete
inputs of the dedup test, adding a parent changes the hash. -/
theorem c8_receipt_hash_parents (rt : ReceiptType) (tid : Option String)
    (fp tp : Principal) (lid : Option String) (body : Option Json)
    (p1 p2 : List String) (hperm : p1.Perm p2) :
    compute_receipt_hash rt tid fp tp lid body (some p1) =
      compute_receipt_hash rt tid fp tp lid body (some p2) ∧
    (∀ (S : Settings) (db : DB) (rid : String) (now : Time) (tenant : String)
      (sid : Option String) (parents : Option (List String)) (ex : ReceiptRow)
      (hsh : String), hsh ≠ "" →
      (parents.getD []).length ≤ 10 →
      getByHash db tenant hsh = some ex →
      receiptCreate S db rid now tenant rt fp tp tid lid sid parents none
        (some hsh) = .ok (ex, db)) ∧
    (∀ (S : Settings) (db : DB) (rid : String) (now : Time) (tenant : String)
      (sid : Option String) (parents : Option (List String)) (hsh : String),
      hsh ≠ "" →
      (parents.getD []).length ≤ 10 →
      is_terminal_type rt = false →
      getByHash db tenant hsh = none →
      ∃ r, receiptCreate S db rid now tenant rt fp tp tid lid sid parents
        none (some hsh) = .ok (r, { db with receipts := db.receipts ++ [r] })
        ∧ r.hash = some hsh) ∧
    compute_receipt_hash .task_progress (some "task1") ⟨.worker, "w1"⟩
        ⟨.agent, "a1"⟩ (some "l1") none (some ["r1"]) ≠
      compute_receipt_hash .task_progress (some "task1") ⟨.worker, "w1"⟩
        ⟨.agent, "a1"⟩ (some "l1") none (some []) := by
  refine ⟨?_, ?_, ?_, by decide⟩
  · simp only [compute_receipt_hash, Option.getD_some,
      pySorted_perm_eq p1 p2 hperm]
  · intro S db rid now tenant sid parents ex hsh hne hlen hget
    have hb : (hsh != "") = true := bne_iff_ne.mpr hne
    simp only [receiptCreate, Bool.false_and, Bool.false_eq_true, ite_false,
      hb, hget, eq_self_iff_true, ite_true]
    rw [if_neg (by omega : ¬ (parents.getD []).length > 10)]
  · intro S db rid now tenant sid parents hsh hne hlen hterm hget
    have hb : (hsh != "") = true := bne_iff_ne.mpr hne
    simp only [receiptCreate, receiptCreate.receiptCreateInsert,
      Bool.false_and, Bool.false_eq_true, ite_false, hb, hget, hterm,
      eq_self_iff_true, ite_true]
    rw [if_neg (by omega : ¬ (parents.getD []).length > 10)]
    exact ⟨_, rfl, rfl⟩

/-- Witness for C8: the two concrete parents orders of the dedup test
hash identically. -/
theorem c8_receipt_hash_parents_witness :
    compute_receipt_hash .task_progress (some "task1") ⟨.worker, "w1"⟩
        ⟨.agent, "a1"⟩ (some "l1") none (some ["r1", "r2"]) =
      compute_receipt_hash .task_progress (some "task1") ⟨.worker, "w1"⟩
        ⟨.agent, "a1"⟩ (some "l1") none (some ["r2", "r1"]) := by
  have hmain := c8_receipt_hash_parents .task_progress (some "task1")
    ⟨.worker, "w1"⟩ ⟨.agent, "a1"⟩ (some "l1") none ["r1", "r2"]
    ["r2", "r1"] (List.Perm.swap "r2" "r1" [])
  exact hmain.1

end AsyncGate


namespace AsyncGate

/-! ## The C3 invariant: terminal tasks carry a terminator receipt -/

/-- The (amended) per-task obligation-closure property: some
terminal-type receipt for the task exists, either citing a
`task.assigned` receipt of the task in its parents, or being a
parent-stripped lenient `task.completed`. -/
def terminalWitness (db : DB) (t : TaskRow) : Prop :=
  ∃ r ∈ db.receipts, r.tenant_id = t.tenant_id ∧ r.task_id = some t.task_id ∧
    is_terminal_type r.receipt_type = true ∧
    ((∃ a ∈ db.receipts, a.receipt_type = .task_assigned ∧
        a.tenant_id = t.tenant_id ∧ a.task_id = some t.task_id ∧
        r.parents.contains a.receipt_id = true) ∨
      (r.receipt_type = .task_completed ∧ r.parents = []))

/-- The C3 store invariant: every terminal task has its witness, and the
store holds no `system.anomaly` receipt at all (the lenient branch only
logs — its anomaly emission is an unimplemented `TODO`). -/
def InvC3 (db : DB) : Prop :=
  (∀ t ∈ db.tasks, t.status.is_terminal = true → terminalWitness db t) ∧
  (∀ r ∈ db.receipts, r.receipt_type ≠ .system_anomaly)

/-- Terminal rows of `db'` descend from terminal rows of `db` with the
same keys. -/
def tasksDescend (db db' : DB) : Prop :=
  ∀ t' ∈ db'.tasks, t'.status.is_terminal = true →
    ∃ t ∈ db.tasks, t.status.is_terminal = true ∧
      t.tenant_id = t'.tenant_id ∧ t.task_id = t'.task_id

/-- `db'` extends `db`'s receipts by appends none of which is a
`system.anomaly`. -/
def receiptsExtend (db db' : DB) : Prop :=
  ∃ l, db'.receipts = db.receipts ++ l ∧
    ∀ r ∈ l, r.receipt_type ≠ .system_anomaly

theorem tasksDescend_of_eq {db db' : DB} (h : db'.tasks = db.tasks) :
    tasksDescend db db' := by
  intro t' ht' hterm
  rw [h] at ht'
  exact ⟨t', ht', hterm, rfl, rfl⟩

theorem tasksDescend_trans {db1 db2 db3 : DB} (h12 : tasksDescend db1 db2)
    (h23 : tasksDescend db2 db3) : tasksDescend db1 db3 := by
  intro t' ht' hterm
  obtain ⟨t2, ht2, hterm2, he2, hi2⟩ := h23 t' ht' hterm
  obtain ⟨t1, ht1, hterm1, he1, hi1⟩ := h12 t2 ht2 hterm2
  exact ⟨t1, ht1, hterm1, he1.trans he2, hi1.trans hi2⟩

theorem receiptsExtend_of_eq {db db' : DB} (h : db'.receipts = db.receipts) :
    receiptsExtend db db' := by
  refine ⟨[], by simp [h], by simp⟩

theorem receiptsExtend_trans {db1 db2 db3 : DB}
    (h12 : receiptsExtend db1 db2) (h23 : receiptsExtend db2 db3) :
    receiptsExtend db1 db3 := by
  obtain ⟨l1, hl1, hn1⟩ := h12
  obtain ⟨l2, hl2, hn2⟩ := h23
  refine ⟨l1 ++ l2, by rw [hl2, hl1, List.append_assoc], ?_⟩
  intro r hr
  rcases List.mem_append.mp hr with h | h
  · exact hn1 r h
  · exact hn2 r h

/-- `tasksDescend` for an in-place update that never makes a row
terminal. -/
theorem tasksDescend_update (db : DB) (tenant task : String)
    (f : TaskRow → TaskRow)
    (hf : ∀ t, (f t).status.is_terminal = true → f t = t) :
    tasksDescend db (dbUpdateTask db tenant task f) := by
  intro t' ht' hterm
  simp only [dbUpdateTask, List.mem_map] at ht'
  obtain ⟨t, ht, hgt⟩ := ht'
  by_cases hc : (t.tenant_id == tenant && t.task_id == task) = true
  · rw [if_pos hc] at hgt
    have := hf t (by rw [hgt]; exact hterm)
    rw [this] at hgt
    subst hgt
    exact ⟨t, ht, hterm, rfl, rfl⟩
  · rw [if_neg hc] at hgt
    subst hgt
    exact ⟨t, ht, hterm, rfl, rfl⟩

/-- A witness survives appends and transfers across equal keys. -/
theorem terminalWitness_mono (db db' : DB) (t t' : TaskRow) (l : List ReceiptRow)
    (hrec : db'.receipts = db.receipts ++ l)
    (hten : t.tenant_id = t'.tenant_id) (hid : t.task_id = t'.task_id)
    (hw : terminalWitness db t) : terminalWitness db' t' := by
  obtain ⟨r, hrmem, h1, h2, h3, h4⟩ := hw
  refine ⟨r, by rw [hrec]; exact List.mem_append_left _ hrmem,
    hten ▸ h1, hid ▸ h2, h3, ?_⟩
  cases h4 with
  | inl h =>
    obtain ⟨a, ham, ha1, ha2, ha3, ha4⟩ := h
    exact Or.inl ⟨a, by rw [hrec]; exact List.mem_append_left _ ham,
      ha1, hten ▸ ha2, hid ▸ ha3, ha4⟩
  | inr h => exact Or.inr h

/-- The invariant transfers along a non-terminalizing tasks change plus a
non-anomalous receipts extension. -/
theorem invC3_transfer {db db' : DB} (hdesc : tasksDescend db db')
    (hrec : receiptsExtend db db') (hinv : InvC3 db) : InvC3 db' := by
  obtain ⟨l, hl, hno⟩ := hrec
  constructor
  · intro t' ht' hterm
    obtain ⟨t, htmem, htterm, hten, htid⟩ := hdesc t' ht' hterm
    exact terminalWitness_mono db db' t t' l hl hten htid
      (hinv.1 t htmem htterm)
  · intro r hr
    rw [hl] at hr
    rcases List.mem_append.mp hr with h | h
    · exact hinv.2 r h
    · exact hno r h

/-- A `get_task_obligation` hit is a stored `task.assigned` receipt of
the task. -/
theorem getTaskObligation_some (db : DB) (tenant task : String)
    (owner : Option Principal) (ob : ReceiptRow)
    (h : getTaskObligation db tenant task owner = some ob) :
    ob ∈ db.receipts ∧ ob.tenant_id = tenant ∧
    ob.receipt_type = .task_assigned ∧ ob.task_id = some task := by
  unfold getTaskObligation at h
  have hmem := List.mem_of_find?_eq_some h
  have hp := List.find?_some h
  simp only [Bool.and_eq_true, beq_iff_eq] at hp
  exact ⟨hmem, hp.1.1.1, hp.1.1.2, hp.1.2⟩

/-- The same for the engine's hinted lookup. -/
theorem engineGetTaskObligation_some (db : DB) (tenant task : String)
    (hint : Option Principal) (ob : ReceiptRow)
    (h : engineGetTaskObligation db tenant task hint = some ob) :
    ob ∈ db.receipts ∧ ob.tenant_id = tenant ∧
    ob.receipt_type = .task_assigned ∧ ob.task_id = some task := by
  unfold engineGetTaskObligation at h
  split at h
  · rename_i r hr
    cases h
    exact getTaskObligation_some _ _ _ _ _ hr
  · split at h
    · exact getTaskObligation_some _ _ _ _ _ h
    · exact Option.noConfusion h

/-- An engine emission of a non-anomalous type extends the receipts and
leaves the tasks alone. -/
theorem emitReceipt_extend (S : Settings) (db : DB) (rid : String)
    (now : Time) (trace tenant : String) (rt : ReceiptType)
    (fp tp : Principal) (tid lid sid : Option String) (body : Option Json)
    (parents : Option (List String)) (r : ReceiptRow) (db' : DB)
    (hrt : rt ≠ .system_anomaly)
    (h : emitReceipt S db rid now trace tenant rt fp tp tid lid sid body
      parents = .ok (r, db')) :
    receiptsExtend db db' ∧ db'.tasks = db.tasks := by
  obtain ⟨hts, -, hrc, -, -, hty, -⟩ :=
    emitReceipt_ok _ _ _ _ _ _ _ _ _ _ _ _ _ _ _ _ h
  refine ⟨⟨[r], hrc, ?_⟩, hts⟩
  intro x hx
  rw [List.mem_singleton.mp hx, hty]
  exact hrt

end AsyncGate


namespace AsyncGate

/-- `TaskRepository.create` leaves the tasks alone or appends one queued
row, and never touches receipts. -/
theorem taskRepoCreate_shape (S : Settings) (db : DB) (task_id : String)
    (now : Time) (tenant ty : String) (payload : Json) (pp : Option String)
    (cb : Principal) (pai : Option String) (rq : Option TaskRequirements)
    (eo ea : Option String) (prio : Int) (ikey : Option String)
    (ma rb ds : Option Nat) :
    ((taskRepoCreate S db task_id now tenant ty payload pp cb pai rq eo ea
        prio ikey ma rb ds).snd.tasks = db.tasks ∨
      ∃ irow, (taskRepoCreate S db task_id now tenant ty payload pp cb pai
          rq eo ea prio ikey ma rb ds).snd.tasks = db.tasks ++ [irow] ∧
        irow.status = TaskStatus.queued) ∧
    (taskRepoCreate S db task_id now tenant ty payload pp cb pai rq eo ea
      prio ikey ma rb ds).snd.receipts = db.receipts := by
  cases ikey with
  | none => exact ⟨Or.inr ⟨_, rfl, rfl⟩, rfl⟩
  | some key =>
    cases hf : db.tasks.find? (fun t =>
        t.tenant_id == tenant && t.idempotency_key == some key) with
    | some ex =>
      have hred : taskRepoCreate S db task_id now tenant ty payload pp cb pai
          rq eo ea prio (some key) ma rb ds = (ex, db) := by
        simp only [taskRepoCreate, hf]
      rw [hred]
      exact ⟨Or.inl rfl, rfl⟩
    | none =>
      refine ⟨Or.inr ⟨(taskRepoCreate S db task_id now tenant ty payload pp
        cb pai rq eo ea prio (some key) ma rb ds).fst, ?_, ?_⟩, ?_⟩ <;>
        simp only [taskRepoCreate, hf]

/-- `create_task` never makes a task terminal (the inserted row is
queued) and appends only a `task.assigned` receipt. -/
theorem createTask_shape (S : Settings) (db : DB) (tid rid : String)
    (now : Time) (tr tenant ty : String) (p : Json) (pp : Option String)
    (cb : Principal) (ai : String) (rq : Option TaskRequirements)
    (eo ea : Option String) (pr : Option Int) (ikey : Option String)
    (ma rb ds : Option Nat) (internal : Bool)
    (tid' : String) (st : TaskStatus) (db' : DB)
    (h : createTask S db tid rid now tr tenant ty p pp cb ai rq eo ea pr
      ikey ma rb ds internal = .ok (tid', st, db')) :
    tasksDescend db db' ∧ receiptsExtend db db' := by
  simp only [createTask] at h
  split at h
  · exact Except.noConfusion h
  · split at h
    · exact Except.noConfusion h
    · split at h
      · exact Except.noConfusion h
      · rename_i r db2 hem
        simp only [Except.ok.injEq, Prod.mk.injEq] at h
        obtain ⟨-, -, hdb⟩ := h
        subst hdb
        obtain ⟨hext, hts⟩ := emitReceipt_extend _ _ _ _ _ _ _ _ _ _ _ _ _ _
          _ _ (by decide) hem
        obtain ⟨hshape, hrec1⟩ := taskRepoCreate_shape S db tid now tenant ty
          p pp (normalizePrincipal cb) (some ai) rq eo ea _ ikey ma rb ds
        constructor
        · intro t' ht' hterm
          rw [hts] at ht'
          rcases hshape with he | ⟨irow, he, hq⟩
          · rw [he] at ht'
            exact ⟨t', ht', hterm, rfl, rfl⟩
          · rw [he] at ht'
            rcases List.mem_append.mp ht' with hmem | hmem
            · exact ⟨t', hmem, hterm, rfl, rfl⟩
            · rw [List.mem_singleton.mp hmem] at hterm
              rw [hq] at hterm
              exact Bool.noConfusion hterm
        · obtain ⟨l, hl, hn⟩ := hext
          exact ⟨l, by rw [hl, hrec1], hn⟩

/-- `renew_lease` touches only the lease table. -/
theorem renewLease_shape (S : Settings) (db : DB) (now : Time)
    (tenant worker task lease : String) (ext : Option Nat) (t : Time)
    (db' : DB)
    (h : renewLease S db now tenant worker task lease ext = .ok (t, db')) :
    db'.tasks = db.tasks ∧ db'.receipts = db.receipts := by
  simp only [renewLease, leaseRenew] at h
  split at h
  · exact Except.noConfusion h
  · split at h
    · exact Except.noConfusion h
    · split at h
      · exact Except.noConfusion h
      · exact Except.noConfusion h
      · rename_i lr db2 heq
        cases h
        split at heq
        · exact Option.noConfusion (Except.ok.inj heq)
        · split at heq
          · exact Except.noConfusion heq
          · split at heq
            · exact Except.noConfusion heq
            · have h3 := Option.some.inj (Except.ok.inj heq)
              injection h3 with h4 h5
              rw [← h5]
              exact ⟨rfl, rfl⟩

/-- `ack_receipt` only appends a `receipt.acknowledged` receipt. -/
theorem engineAckReceipt_shape (S : Settings) (db : DB) (rid : String)
    (now : Time) (tr tenant acked : String) (p : Principal) (db' : DB)
    (h : engineAckReceipt S db rid now tr tenant acked p = .ok db') :
    tasksDescend db db' ∧ receiptsExtend db db' := by
  simp only [engineAckReceipt] at h
  split at h
  · exact Except.noConfusion h
  · rename_i r db2 hem
    cases h
    obtain ⟨hext, hts⟩ := emitReceipt_extend _ _ _ _ _ _ _ _ _ _ _ _ _ _ _ _
      (by decide) hem
    exact ⟨tasksDescend_of_eq hts, hext⟩

end AsyncGate


namespace AsyncGate

/-- The claim loop only flips claimed rows to leased (never terminal) and
leaves the receipts alone. -/
theorem claimLoop_shape (tenant worker : String) (now exp : Time)
    (caps : Option (List String)) :
    ∀ (tasks : List TaskRow) (db : DB) (lease_ids : List String)
      (acc : List LeaseRow),
      tasksDescend db (claimLoop tenant worker now exp caps db tasks
        lease_ids acc).2 ∧
      (claimLoop tenant worker now exp caps db tasks lease_ids acc).2.receipts
        = db.receipts
  | [], db, lease_ids, acc => ⟨tasksDescend_of_eq rfl, rfl⟩
  | task :: rest, db, lease_ids, acc => by
    simp only [claimLoop]
    split
    · split
      · exact ⟨tasksDescend_of_eq rfl, rfl⟩
      · rename_i lease_id lease_ids2
        obtain ⟨hd, hr⟩ := claimLoop_shape tenant worker now exp caps rest _
          lease_ids2 _
        refine ⟨tasksDescend_trans ?_ hd, hr.trans ?_⟩
        · exact tasksDescend_update db tenant task.task_id _
            (fun t h => Bool.noConfusion h)
        · rfl
    · exact claimLoop_shape tenant worker now exp caps rest db lease_ids acc

/-- The `task.accepted` emission loop only appends receipts. -/
theorem acceptLoop_shape (S : Settings) (now : Time) (tr tenant : String)
    (caps : Option (List String)) :
    ∀ (leases : List LeaseRow) (db : DB) (rids : List String) (db' : DB),
      acceptLoop S now tr tenant caps db leases rids = .ok db' →
      receiptsExtend db db' ∧ db'.tasks = db.tasks
  | [], db, rids, db', h => by
    cases h
    exact ⟨receiptsExtend_of_eq rfl, rfl⟩
  | lease :: rest, db, rids, db', h => by
    simp only [acceptLoop] at h
    split at h
    · exact acceptLoop_shape S now tr tenant caps rest db rids db' h
    · split at h
      · cases h
        exact ⟨receiptsExtend_of_eq rfl, rfl⟩
      · split at h
        · exact Except.noConfusion h
        · rename_i r db2 hem
          obtain ⟨hext, hts⟩ := emitReceipt_extend _ _ _ _ _ _ _ _ _ _ _ _ _
            _ _ _ (by decide) hem
          obtain ⟨hext2, hts2⟩ := acceptLoop_shape S now tr tenant caps rest
            db2 _ db' h
          exact ⟨receiptsExtend_trans hext hext2, hts2.trans hts⟩

/-- `lease_next` never makes a task terminal and appends only
`task.accepted` receipts. -/
theorem leaseNext_shape (S : Settings) (db : DB)
    (lease_ids accept_rids : List String) (now : Time)
    (tr tenant worker : String) (caps types : Option (List String))
    (max_tasks : Nat) (ttl : Option Nat) (ls : List LeaseRow) (db' : DB)
    (h : leaseNext S db lease_ids accept_rids now tr tenant worker caps
      types max_tasks ttl = .ok (ls, db')) :
    tasksDescend db db' ∧ receiptsExtend db db' := by
  simp only [leaseNext] at h
  split at h
  · exact Except.noConfusion h
  · rename_i db2 hal
    cases h
    obtain ⟨hext, hts⟩ := acceptLoop_shape S now tr tenant caps _ _
      accept_rids db' hal
    have hd1 : tasksDescend db (claim_next S db lease_ids now tenant worker
        caps types (min max_tasks 10) ttl).2 :=
      (claimLoop_shape tenant worker now _ caps _ db lease_ids []).1
    have hr1 : (claim_next S db lease_ids now tenant worker caps types
        (min max_tasks 10) ttl).2.receipts = db.receipts :=
      (claimLoop_shape tenant worker now _ caps _ db lease_ids []).2
    exact ⟨tasksDescend_trans hd1 (tasksDescend_of_eq hts),
      receiptsExtend_trans (receiptsExtend_of_eq hr1) hext⟩

end AsyncGate


namespace AsyncGate

/-- `_transition_to_running` only sets the task running (never terminal)
and appends at most a `task.started` receipt. -/
theorem transitionToRunning_shape (S : Settings) (db : DB) (rid : String)
    (now : Time) (tr tenant : String) (task : TaskRow)
    (worker lease : String) (owner : Principal)
    (parents : Option (List String)) (s : Time) (db' : DB)
    (h : transitionToRunning S db rid now tr tenant task worker lease owner
      parents = .ok (s, db')) :
    tasksDescend db db' ∧ receiptsExtend db db' := by
  simp only [transitionToRunning] at h
  split at h
  · cases h
    exact ⟨tasksDescend_of_eq rfl, receiptsExtend_of_eq rfl⟩
  · split at h
    · exact Except.noConfusion h
    · split at h
      · exact Except.noConfusion h
      · rename_i r db2 hem
        simp only [Except.ok.injEq, Prod.mk.injEq] at h
        obtain ⟨-, hdb⟩ := h
        subst hdb
        obtain ⟨hext, hts⟩ := emitReceipt_extend _ _ _ _ _ _ _ _ _ _ _ _ _ _
          _ _ (by decide) hem
        exact ⟨tasksDescend_trans (tasksDescend_update db tenant task.task_id
            _ (fun t hx => Bool.noConfusion hx)) (tasksDescend_of_eq hts),
          receiptsExtend_trans (receiptsExtend_of_eq rfl) hext⟩

/-- `start_task` never makes a task terminal and appends at most a
`task.started` receipt. -/
theorem startTask_shape (S : Settings) (db : DB) (rid : String) (now : Time)
    (tr tenant worker task lease : String) (st : Option Time) (db' : DB)
    (h : startTask S db rid now tr tenant worker task lease
      = .ok (st, db')) :
    tasksDescend db db' ∧ receiptsExtend db db' := by
  simp only [startTask] at h
  split at h
  · exact Except.noConfusion h
  · split at h
    · exact Except.noConfusion h
    · split at h
      · cases h
        exact ⟨tasksDescend_of_eq rfl, receiptsExtend_of_eq rfl⟩
      · split at h
        · exact Except.noConfusion h
        · rename_i s db2 htr
          cases h
          exact transitionToRunning_shape S db rid now tr tenant _ worker
            lease _ _ _ _ htr

/-- `report_progress` never makes a task terminal and appends only
`task.started` / `task.progress` receipts. -/
theorem reportProgress_shape (S : Settings) (db : DB) (rid1 rid2 : String)
    (now : Time) (tr tenant worker task lease : String) (data : Json)
    (db' : DB)
    (h : reportProgress S db rid1 rid2 now tr tenant worker task lease data
      = .ok db') :
    tasksDescend db db' ∧ receiptsExtend db db' := by
  simp only [reportProgress] at h
  split at h
  · exact Except.noConfusion h
  · split at h
    · exact Except.noConfusion h
    · split at h
      · exact Except.noConfusion h
      · rename_i db1 har
        split at h
        · exact Except.noConfusion h
        · rename_i r db2 hem
          cases h
          obtain ⟨hext2, hts2⟩ := emitReceipt_extend _ _ _ _ _ _ _ _ _ _ _ _
            _ _ _ _ (by decide) hem
          split at har
          · split at har
            · exact Except.noConfusion har
            · rename_i s db0 htr
              cases har
              obtain ⟨hd, he⟩ := transitionToRunning_shape S db rid1 now tr
                tenant _ worker lease _ _ _ _ htr
              exact ⟨tasksDescend_trans hd (tasksDescend_of_eq hts2),
                receiptsExtend_trans he hext2⟩
          · cases har
            exact ⟨tasksDescend_of_eq hts2, hext2⟩

/-- `requeue_on_expiry` only requeues (never terminal) and keeps the
receipts. -/
theorem requeueOnExpiry_shape (db : DB) (now : Time) (tenant task : String)
    (j : Int) :
    tasksDescend db (requeue_on_expiry db now tenant task j).2 ∧
    (requeue_on_expiry db now tenant task j).2.receipts = db.receipts := by
  unfold requeue_on_expiry
  split
  · exact ⟨tasksDescend_of_eq rfl, rfl⟩
  · exact ⟨tasksDescend_update db tenant task _
      (fun t hx => Bool.noConfusion hx), rfl⟩

/-- One pass of the expiry sweep never makes a task terminal and appends
at most a `lease.expired` receipt. -/
theorem expireOneLease_shape (S : Settings) (db : DB) (rid : String)
    (now : Time) (tr : String) (lease : LeaseRow) (jitter : Int) :
    tasksDescend db (expireOneLease S db rid now tr lease jitter) ∧
    receiptsExtend db (expireOneLease S db rid now tr lease jitter) := by
  unfold expireOneLease
  split
  · exact ⟨tasksDescend_of_eq rfl, receiptsExtend_of_eq rfl⟩
  · split
    · exact ⟨tasksDescend_of_eq rfl, receiptsExtend_of_eq rfl⟩
    · split
      rename_i fst db1 hpair
      obtain ⟨hd, hr⟩ := requeueOnExpiry_shape db now lease.tenant_id
        lease.task_id jitter
      rw [hpair] at hd hr
      dsimp only
      split
      · exact ⟨tasksDescend_of_eq rfl, receiptsExtend_of_eq rfl⟩
      · rename_i r db3 hem
        obtain ⟨hext, hts⟩ := emitReceipt_extend _ _ _ _ _ _ _ _ _ _ _ _ _ _
          _ _ (by decide) hem
        exact ⟨tasksDescend_trans hd (tasksDescend_of_eq hts),
          receiptsExtend_trans (receiptsExtend_of_eq hr) hext⟩

end AsyncGate


namespace AsyncGate

/-- `requeue_with_backoff` only requeues (never terminal) and keeps the
receipts. -/
theorem requeueWithBackoff_shape (S : Settings) (db : DB) (now : Time)
    (tenant task : String) (inc : Bool) :
    tasksDescend db (requeue_with_backoff S db now tenant task inc).2 ∧
    (requeue_with_backoff S db now tenant task inc).2.receipts
      = db.receipts := by
  unfold requeue_with_backoff
  split
  · exact ⟨tasksDescend_of_eq rfl, rfl⟩
  · exact ⟨tasksDescend_update db tenant task _
      (fun t hx => Bool.noConfusion hx), rfl⟩

/-- The invariant survives an operation that terminalizes exactly the
rows keyed `(tenant, task)`, provided every row with those keys has a
witness in the new store. -/
theorem invC3_terminalize {db db' : DB} (tenant task : String)
    (g : TaskRow → TaskRow)
    (htasks : db'.tasks = db.tasks.map (fun t =>
      if t.tenant_id == tenant && t.task_id == task then g t else t))
    (hkeys : ∀ t, (g t).tenant_id = t.tenant_id ∧ (g t).task_id = t.task_id)
    (hrec : receiptsExtend db db')
    (hwit : ∀ t' : TaskRow, t'.tenant_id = tenant → t'.task_id = task →
      terminalWitness db' t')
    (hinv : InvC3 db) : InvC3 db' := by
  obtain ⟨l, hl, hno⟩ := hrec
  constructor
  · intro t' ht' hterm
    rw [htasks] at ht'
    obtain ⟨t, ht, hgt⟩ := List.mem_map.mp ht'
    by_cases hc : (t.tenant_id == tenant && t.task_id == task) = true
    · rw [if_pos hc] at hgt
      simp only [Bool.and_eq_true, beq_iff_eq] at hc
      subst hgt
      exact hwit (g t) ((hkeys t).1.trans hc.1) ((hkeys t).2.trans hc.2)
    · rw [if_neg hc] at hgt
      subst hgt
      exact terminalWitness_mono db db' t t l hl rfl rfl (hinv.1 t ht hterm)
  · intro r hr
    rw [hl] at hr
    rcases List.mem_append.mp hr with hx | hx
    · exact hinv.2 r hx
    · exact hno r hx

/-- `complete` preserves the invariant: the task it terminalizes gets a
`task.completed` receipt that either cites the `task.assigned` obligation
or — on the lenient artifact-free path — is stored with `parents = []`;
no `system.anomaly` is ever appended. -/
theorem engineComplete_inv (S : Settings) (db : DB) (rid1 rid2 : String)
    (now : Time) (tr tenant worker task lease : String) (result : Json)
    (artifacts : Option Json) (db' : DB)
    (h : engineComplete S db rid1 rid2 now tr tenant worker task lease
      result artifacts = .ok db')
    (hinv : InvC3 db) : InvC3 db' := by
  simp only [engineComplete] at h
  split at h
  · exact Except.noConfusion h
  · split at h
    · exact Except.noConfusion h
    · rename_i t0 ht0
      split at h
      · exact Except.noConfusion h
      · split at h
        · exact Except.noConfusion h
        · rename_i ob hob
          split at h
          · exact Except.noConfusion h
          · rename_i r1 db3 hem1
            split at h
            · exact Except.noConfusion h
            · rename_i t3 ht3
              split at h
              · exact Except.noConfusion h
              · rename_i r2 db4 hem2
                cases h
                obtain ⟨obmem, obten, obty, obtid⟩ :=
                  engineGetTaskObligation_some db tenant task _ ob hob
                obtain ⟨h1ts, -, h1rc, -, h1ten, h1ty, -, -, -, h1tid, -, -,
                  -, h1par⟩ := emitReceipt_ok _ _ _ _ _ _ _ _ _ _ _ _ _ _ _ _
                  hem1
                obtain ⟨h2ts, -, h2rc, -, -, h2ty, -, -, -, -, -, -, -, -⟩ :=
                  emitReceipt_ok _ _ _ _ _ _ _ _ _ _ _ _ _ _ _ _ hem2
                have hmap : db'.tasks = db.tasks.map (fun t =>
                    if t.tenant_id == tenant && t.task_id == task then
                      { t with
                        status := TaskStatus.succeeded
                        updated_at := now
                        result := some { outcome := Outcome.succeeded
                                         result := some result
                                         artifacts := artifacts
                                         completed_at := now } }
                    else t) := by
                  rw [h2ts, h1ts]
                  rfl
                refine invC3_terminalize tenant task _ hmap ?_ ?_ ?_ hinv
                · exact fun t => ⟨rfl, rfl⟩
                · refine ⟨[r1, r2], ?_, ?_⟩
                  · rw [h2rc, h1rc]
                    simp [updateTaskStatus, dbUpdateTask, leaseRelease]
                  · intro x hx
                    simp only [List.mem_cons, List.not_mem_nil,
                      or_false] at hx
                    rcases hx with rfl | rfl
                    · rw [h1ty]; decide
                    · rw [h2ty]; decide
                · intro t' hten htid
                  refine ⟨r1, ?_, h1ten.trans hten.symm,
                    h1tid.trans (by rw [htid]), by rw [h1ty]; decide, ?_⟩
                  · rw [h2rc, h1rc]
                    exact List.mem_append_left _ (List.mem_append_right _
                      (List.mem_singleton.mpr rfl))
                  · rw [h1par]
                    split
                    · exact Or.inr ⟨h1ty, rfl⟩
                    · refine Or.inl ⟨ob, ?_, obty, obten.trans hten.symm,
                        obtid.trans (by rw [htid]), by simp⟩
                      rw [h2rc, h1rc]
                      exact List.mem_append_left _
                        (List.mem_append_left _ obmem)

/-- `fail` preserves the invariant: a requeue keeps every task
non-terminal, and a terminal failure appends a `task.failed` receipt
citing the obligation. -/
theorem engineFail_inv (S : Settings) (db : DB) (rid1 rid2 : String)
    (now : Time) (tr tenant worker task lease : String) (error : Json)
    (retryable requeued : Bool) (ne : Option Time) (db' : DB)
    (h : engineFail S db rid1 rid2 now tr tenant worker task lease error
      retryable = .ok (requeued, ne, db'))
    (hinv : InvC3 db) : InvC3 db' := by
  simp only [engineFail] at h
  split at h
  · exact Except.noConfusion h
  · split at h
    · exact Except.noConfusion h
    · rename_i t0 ht0
      split at h
      · exact Except.noConfusion h
      · rename_i ob hob
        split at h
        · split at h
          · exact Except.noConfusion h
          · rename_i task1 db2 heq
            split at h
            · exact Except.noConfusion h
            · rename_i r db3 hem
              cases h
              obtain ⟨hext, hts⟩ := emitReceipt_extend _ _ _ _ _ _ _ _ _ _ _
                _ _ _ _ _ (by decide) hem
              obtain ⟨hd, hr⟩ := requeueWithBackoff_shape S
                (leaseRelease db tenant task) now tenant task true
              rw [heq] at hd hr
              exact invC3_transfer (tasksDescend_trans hd
                  (tasksDescend_of_eq hts))
                (receiptsExtend_trans (receiptsExtend_of_eq hr) hext) hinv
        · split at h
          · exact Except.noConfusion h
          · rename_i r1 db3 hem1
            split at h
            · exact Except.noConfusion h
            · rename_i t3 ht3
              split at h
              · exact Except.noConfusion h
              · rename_i r2 db4 hem2
                cases h
                obtain ⟨obmem, obten, obty, obtid⟩ :=
                  engineGetTaskObligation_some db tenant task _ ob hob
                obtain ⟨h1ts, -, h1rc, -, h1ten, h1ty, -, -, -, h1tid, -, -,
                  -, h1par⟩ := emitReceipt_ok _ _ _ _ _ _ _ _ _ _ _ _ _ _ _ _
                  hem1
                obtain ⟨h2ts, -, h2rc, -, -, h2ty, -, -, -, -, -, -, -, -⟩ :=
                  emitReceipt_ok _ _ _ _ _ _ _ _ _ _ _ _ _ _ _ _ hem2
                have hmap : db'.tasks = db.tasks.map (fun t =>
                    if t.tenant_id == tenant && t.task_id == task then
                      { t with
                        status := TaskStatus.failed
                        updated_at := now
                        result := some { outcome := Outcome.failed
                                         error := some error
                                         completed_at := now } }
                    else t) := by
                  rw [h2ts, h1ts]
                  rfl
                refine invC3_terminalize tenant task _ hmap ?_ ?_ ?_ hinv
                · exact fun t => ⟨rfl, rfl⟩
                · refine ⟨[r1, r2], ?_, ?_⟩
                  · rw [h2rc, h1rc]
                    simp [updateTaskStatus, dbUpdateTask, leaseRelease]
                  · intro x hx
                    simp only [List.mem_cons, List.not_mem_nil,
                      or_false] at hx
                    rcases hx with rfl | rfl
                    · rw [h1ty]; decide
                    · rw [h2ty]; decide
                · intro t' hten htid
                  refine ⟨r1, ?_, h1ten.trans hten.symm,
                    h1tid.trans (by rw [htid]), by rw [h1ty]; decide, ?_⟩
                  · rw [h2rc, h1rc]
                    exact List.mem_append_left _ (List.mem_append_right _
                      (List.mem_singleton.mpr rfl))
                  · rw [h1par]
                    split
                    · rename_i hx
                      rw [show (ReceiptType.task_failed ==
                          ReceiptType.task_completed) = false from rfl,
                        Bool.false_and] at hx
                      exact Bool.noConfusion hx
                    · refine Or.inl ⟨ob, ?_, obty, obten.trans hten.symm,
                        obtid.trans (by rw [htid]), by simp⟩
                      rw [h2rc, h1rc]
                      exact List.mem_append_left _
                        (List.mem_append_left _ obmem)

/-- `cancel_task` preserves the invariant: the no-op terminal branch
changes nothing, and a cancellation appends a `task.canceled` receipt
citing the obligation. -/
theorem engineCancelTask_inv (S : Settings) (db : DB) (rid1 rid2 : String)
    (now : Time) (tr tenant task : String) (p : Principal)
    (reason : Option String) (internal okb : Bool) (st : TaskStatus)
    (db' : DB)
    (h : engineCancelTask S db rid1 rid2 now tr tenant task p reason
      internal = .ok (okb, st, db'))
    (hinv : InvC3 db) : InvC3 db' := by
  simp only [engineCancelTask] at h
  split at h
  · exact Except.noConfusion h
  · rename_i t0 ht0
    split at h
    · exact Except.noConfusion h
    · rename_i ob hob
      split at h
      · exact Except.noConfusion h
      · split at h
        · exact Except.noConfusion h
        · split at h
          · cases h
            exact hinv
          · rename_i hterm0
            split at h
            · exact Except.noConfusion h
            · rename_i task1 db2 heq
              split at h
              · exact Except.noConfusion h
              · rename_i r1 db3 hem1
                split at h
                · exact Except.noConfusion h
                · rename_i r2 db4 hem2
                  cases h
                  have hlr : dbGetTask (leaseRelease db tenant task) tenant
                      task = some t0 := by
                    rw [dbGetTask_leaseRelease]
                    exact ht0
                  simp only [taskRepoCancel, hlr] at heq
                  rw [if_neg hterm0] at heq
                  injection heq with heq1 heq2
                  subst heq2
                  obtain ⟨obmem, obten, obty, obtid⟩ :=
                    engineGetTaskObligation_some db tenant task _ ob hob
                  obtain ⟨h1ts, -, h1rc, -, h1ten, h1ty, -, -, -, h1tid, -,
                    -, -, h1par⟩ := emitReceipt_ok _ _ _ _ _ _ _ _ _ _ _ _ _
                    _ _ _ hem1
                  obtain ⟨h2ts, -, h2rc, -, -, h2ty, -, -, -, -, -, -, -,
                    -⟩ := emitReceipt_ok _ _ _ _ _ _ _ _ _ _ _ _ _ _ _ _ hem2
                  have htk : task1.task_id = task :=
                    (dbGetTask_keys _ tenant task task1 heq1).2
                  have hmap : db'.tasks = db.tasks.map (fun t =>
                      if t.tenant_id == tenant && t.task_id == task then
                        { t with
                          status := TaskStatus.canceled
                          updated_at := now
                          result := some { outcome := Outcome.canceled
                                           error := match reason with
                                             | some r => some (Json.jobj
                                                 [("reason", Json.str r)])
                                             | none => none
                                           completed_at := now } }
                      else t) := by
                    cases reason <;> exact h2ts.trans (h1ts.trans rfl)
                  refine invC3_terminalize tenant task _ hmap ?_ ?_ ?_ hinv
                  · exact fun t => ⟨rfl, rfl⟩
                  · refine ⟨[r1, r2], ?_, ?_⟩
                    · rw [h2rc, h1rc]
                      simp [updateTaskStatus, dbUpdateTask, leaseRelease]
                    · intro x hx
                      simp only [List.mem_cons, List.not_mem_nil,
                        or_false] at hx
                      rcases hx with rfl | rfl
                      · rw [h1ty]; decide
                      · rw [h2ty]; decide
                  · intro t' hten htid
                    refine ⟨r1, ?_, h1ten.trans hten.symm, ?_,
                      by rw [h1ty]; decide, ?_⟩
                    · rw [h2rc, h1rc]
                      exact List.mem_append_left _ (List.mem_append_right _
                        (List.mem_singleton.mpr rfl))
                    · rw [h1tid, htk, htid]
                    · rw [h1par]
                      split
                      · rename_i hx
                        rw [show (ReceiptType.task_canceled ==
                            ReceiptType.task_completed) = false from rfl,
                          Bool.false_and] at hx
                        exact Bool.noConfusion hx
                      · refine Or.inl ⟨ob, ?_, obty, obten.trans hten.symm,
                          obtid.trans (by rw [htid]), by simp⟩
                        rw [h2rc, h1rc]
                        exact List.mem_append_left _
                          (List.mem_append_left _ obmem)

end AsyncGate


namespace AsyncGate

/-- **C3 (amended).**  In every store reachable through the engine, every
task in a terminal state has a terminal-type receipt for it that either
cites a `task.assigned` receipt of the task in its parents, **or** is a
lenient `task.completed` stored with `parents = []` (no artifacts and no
delivery proof) — and in the latter case **no** `system.anomaly` receipt
is emitted: no engine operation ever emits one (the anomaly emission is
an unimplemented `TODO` in `ReceiptRepository.create`), so the
obligation is simply left open. -/
theorem c3_terminal_tasks_terminator_amended (S : Settings) (db : DB)
    (hr : Reach S db) :
    (∀ t ∈ db.tasks, t.status.is_terminal = true → terminalWitness db t) ∧
    (∀ r ∈ db.receipts, r.receipt_type ≠ .system_anomaly) := by
  induction hr with
  | init =>
    exact ⟨fun t ht => absurd ht (List.not_mem_nil t),
      fun r hrr => absurd hrr (List.not_mem_nil r)⟩
  | step hprev hstep ih =>
    cases hstep with
    | create tid rid now tr tenant type payload pp cb pai req eok eam prio
        ikey ma rb ds internal tid' st h =>
      obtain ⟨hd, he⟩ := createTask_shape _ _ _ _ _ _ _ _ _ _ _ _ _ _ _ _ _
        _ _ _ _ _ _ _ h
      exact invC3_transfer hd he ih
    | lease lease_ids accept_rids now tr tenant worker caps types max_tasks
        ttl ls h =>
      obtain ⟨hd, he⟩ := leaseNext_shape _ _ _ _ _ _ _ _ _ _ _ _ _ _ h
      exact invC3_transfer hd he ih
    | renew now tenant worker task lease extend t h =>
      obtain ⟨hts, hrc⟩ := renewLease_shape _ _ _ _ _ _ _ _ _ _ h
      exact invC3_transfer (tasksDescend_of_eq hts)
        (receiptsExtend_of_eq hrc) ih
    | start rid now tr tenant worker task lease st h =>
      obtain ⟨hd, he⟩ := startTask_shape _ _ _ _ _ _ _ _ _ _ _ h
      exact invC3_transfer hd he ih
    | progress rid1 rid2 now tr tenant worker task lease data h =>
      obtain ⟨hd, he⟩ := reportProgress_shape _ _ _ _ _ _ _ _ _ _ _ _ h
      exact invC3_transfer hd he ih
    | complete rid1 rid2 now tr tenant worker task lease result artifacts
        h =>
      exact engineComplete_inv _ _ _ _ _ _ _ _ _ _ _ _ _ h ih
    | fail rid1 rid2 now tr tenant worker task lease error retryable
        requeued ne h =>
      exact engineFail_inv _ _ _ _ _ _ _ _ _ _ _ _ _ _ _ h ih
    | cancel rid1 rid2 now tr tenant task p reason internal ok st h =>
      exact engineCancelTask_inv _ _ _ _ _ _ _ _ _ _ _ _ _ _ h ih
    | ack rid now tr tenant acked p h =>
      obtain ⟨hd, he⟩ := engineAckReceipt_shape _ _ _ _ _ _ _ _ _ h
      exact invC3_transfer hd he ih
    | expire rid now tr lease jitter =>
      obtain ⟨hd, he⟩ := expireOneLease_shape S _ rid now tr lease jitter
      exact invC3_transfer hd he ih

end AsyncGate

namespace AsyncGate

/-- Fixture: a concrete `create_task` (fresh ids, no idempotency key). -/
def exT1 : Except EngineError (String × TaskStatus × DB) :=
  createTask {} {} "taskC" "rA" 100 "tr" "t" "test_task"
    (Json.jobj [("data", .str "test")]) none exAgent "ai1" none none none
    none none none none none false

/-- Fixture: the store after `exT1`. -/
def exTDB1 : DB :=
  match exT1 with
  | .ok (_, _, d) => d
  | .error _ => {}

/-- Fixture: a concrete `lease_next` claim of the task. -/
def exT2 : Except EngineError (List LeaseRow × DB) :=
  leaseNext {} exTDB1 ["l1"] ["rAcc"] 110 "tr" "t" "w1" none none 1 none

/-- Fixture: the leases `exT2` grants. -/
def exTLeases : List LeaseRow :=
  match exT2 with
  | .ok (ls, _) => ls
  | .error _ => []

/-- Fixture: the store after `exT2`. -/
def exTDB2 : DB :=
  match exT2 with
  | .ok (_, d) => d
  | .error _ => exTDB1

/-- Fixture: a concrete `complete` with a result but **no artifacts** —
the lenient path. -/
def exT3 : Except EngineError DB :=
  engineComplete {} exTDB2 "rComp" "rReady" 120 "tr" "t" "w1" "taskC" "l1"
    (Json.jobj [("answer", .num 42)]) none

/-- Fixture: the store after the lenient complete. -/
def exTDB3 : DB :=
  match exT3 with
  | .ok d => d
  | .error _ => exTDB2

/-- Counterexample for C3: after the artifact-free complete the task is
succeeded and its `task.completed` receipt was stored with
`parents = []`, but **no** `system.anomaly` receipt exists anywhere in
the store, and under the rules-based reading the `task.assigned`
obligation `rA` has no terminator — it is left open with no anomaly
signal, contradicting the claimed anomaly emission. -/
theorem c3_lenient_complete_no_anomaly :
    (dbGetTask exTDB3 "t" "taskC").map (fun t => t.status)
      = some .succeeded ∧
    (exTDB3.receipts.filter (fun r =>
      r.receipt_type == ReceiptType.system_anomaly)).length = 0 ∧
    (exTDB3.receipts.filter (fun r =>
      r.receipt_type == ReceiptType.task_completed)).map (fun r => r.parents)
      = [[]] ∧
    has_terminator_spec exTDB3 "t" "rA" = false :=
  ⟨rfl, rfl, rfl, rfl⟩

/-- Witness for C3: the lenient-complete store is reachable, and the
amended theorem applies to it — in particular it holds no
`system.anomaly` receipt. -/
theorem c3_terminal_tasks_terminator_amended_witness :
    Reach ({} : Settings) exTDB3 ∧
    (∀ r ∈ exTDB3.receipts, r.receipt_type ≠ ReceiptType.system_anomaly) := by
  have h1 : createTask {} {} "taskC" "rA" 100 "tr" "t" "test_task"
      (Json.jobj [("data", .str "test")]) none exAgent "ai1" none none none
      none none none none none false = .ok ("taskC", .queued, exTDB1) := rfl
  have h2 : leaseNext {} exTDB1 ["l1"] ["rAcc"] 110 "tr" "t" "w1" none none
      1 none = .ok (exTLeases, exTDB2) := rfl
  have h3 : engineComplete {} exTDB2 "rComp" "rReady" 120 "tr" "t" "w1"
      "taskC" "l1" (Json.jobj [("answer", .num 42)]) none
      = .ok exTDB3 := rfl
  have hre : Reach ({} : Settings) exTDB3 :=
    Reach.step (Reach.step (Reach.step Reach.init
      (Step.create _ _ _ _ _ _ _ _ _ _ _ _ _ _ _ _ _ _ _ _ _ h1))
      (Step.lease _ _ _ _ _ _ _ _ _ _ _ h2))
      (Step.complete _ _ _ _ _ _ _ _ _ _ h3)
  exact ⟨hre, (c3_terminal_tasks_terminator_amended {} exTDB3 hre).2⟩

end AsyncGate
